import Mathlib

/-!
Verification of `main.go` of awslambdaresizer.

A shallow embedding of the Lambda handler of `main.go` (fetch an S3 object into
`/tmp/`, sniff its type, resize it, upload the thumbnail, answer with the key and a
base64 copy), followed by theorems about it.

Go strings are Lean `String`s and the string functions work on their character
lists.  The operating system, the S3 client and the image libraries are external to
the program: their effects on the staging filesystem and on the destination store
are modelled on an explicit `World`, and what cannot be known from the program (which
calls fail, what the codecs compute) is a parameter, `Env`.
-/

namespace Resizer

/-! ## Strings and paths (Go standard library) -/

/-- The scan of `strings.Replace(s, old, new, -1)` for a non-empty `old`: left to
right, each occurrence found is replaced and the scan resumes right after it.  The
counter is the number of characters of a matched occurrence still to be dropped. -/
def replaceScan (old new : List Char) : Nat → List Char → List Char
  | _, [] => []
  | skip + 1, _ :: cs => replaceScan old new skip cs
  | 0, c :: cs =>
    if old.isPrefixOf (c :: cs) then new ++ replaceScan old new (old.length - 1) cs
    else c :: replaceScan old new 0 cs

/-- Go inserts `new` before every character and at the end when `old` is empty. -/
def replaceEmpty (new : List Char) : List Char → List Char
  | [] => new
  | c :: cs => new ++ c :: replaceEmpty new cs

/-- The call `strings.Replace(s, old, new, -1)`: every non-overlapping occurrence of
`old` in `s`, leftmost first, is replaced by `new`. -/
def stringsReplace (s old new : String) : String :=
  if old = new then s
  else if old.data = [] then ⟨replaceEmpty new.data s.data⟩
  else ⟨replaceScan old.data new.data 0 s.data⟩

/-- The function `filepath.Split` on a slash-separated path: the path is cut right
after its last `/`; without any `/` the directory is empty. -/
def filepathSplit (path : String) : String × String :=
  let file := (path.data.reverse.takeWhile (fun c => c != '/')).reverse
  (⟨path.data.take (path.data.length - file.length)⟩, ⟨file⟩)

/-- The function `filepath.Ext`: the suffix of the last path element that starts at
its last dot, or the empty string when that element has no dot. -/
def filepathExt (path : String) : String :=
  let tail := path.data.reverse.takeWhile (fun c => c != '/' && c != '.')
  match path.data.reverse.drop tail.length with
  | '.' :: _ => ⟨'.' :: tail.reverse⟩
  | _ => ""

/-- The lower-case form of a character as far as `strings.ToLower` can produce an
ASCII letter: the ASCII capitals, the dotted capital I (U+0130, to `i`) and the Kelvin
sign (U+212A, to `k`).  The lower-case forms of all other characters are outside
ASCII; they are left as they are. -/
def goLower (c : Char) : Char :=
  if c = Char.ofNat 0x130 then 'i' else if c = Char.ofNat 0x212A then 'k' else c.toLower

/-- The call `strings.TrimPrefix(s, ".")`. -/
def trimDot (s : String) : String :=
  match s.data with
  | '.' :: rest => ⟨rest⟩
  | _ => s

/-- The function `path.Clean` on the rooted path `/` + `key`, as a list of path
elements: empty elements and `.` are dropped, `..` drops the element before it (or
nothing at the root). -/
def cleanSegments (stack : List (List Char)) : List (List Char) → List (List Char)
  | [] => stack.reverse
  | seg :: rest =>
    if seg = [] ∨ seg = ['.'] then cleanSegments stack rest
    else if seg = ['.', '.'] then cleanSegments stack.tail rest
    else cleanSegments (seg :: stack) rest

/-- The elements of a path between its slashes. -/
def splitOnSlash : List Char → List (List Char)
  | [] => [[]]
  | c :: cs =>
    if c = '/' then [] :: splitOnSlash cs
    else
      match splitOnSlash cs with
      | [] => [[c]]
      | seg :: rest => (c :: seg) :: rest

/-- The elements joined by single slashes. -/
def joinWithSlash : List (List Char) → List Char
  | [] => []
  | [seg] => seg
  | seg :: rest => seg ++ '/' :: joinWithSlash rest

/-- The key under which S3 stores an object uploaded with the key `key`: the S3 client
(aws-sdk-go, `rest.Build`) sends the request path `/` + `key` through `path.Clean` and
puts back a trailing slash, the bucket being addressed by the host name. -/
def cleanKey (key : String) : String :=
  let cleaned := joinWithSlash (cleanSegments [] (splitOnSlash key.data))
  if key.data.getLast? = some '/' ∧ cleaned ≠ [] then ⟨cleaned ++ ['/']⟩ else ⟨cleaned⟩

/-- The integer nearest to `a / b` for a positive `b`, halves going up:
`math.Floor(a/b + 0.5)`. -/
def roundDiv (a b : Int) : Int := (2 * a + b) / (2 * b)

/-- The predicate `sub` occurs in `s` as a contiguous substring. -/
def containsSub (s sub : String) : Prop := sub.data <:+: s.data

instance (s sub : String) : Decidable (containsSub s sub) := by
  unfold containsSub; infer_instance

/-! ## The path computations of `main.go` -/

/-- The constant `tmp` (line 21). -/
def tmp : String := "/tmp/"

/-- The staged source path of `getSource` (line 112). -/
def local_file (sr_key sr_bucket : String) : String :=
  tmp ++ sr_bucket ++ "/" ++ sr_key

/-- The transformed staging path of `resizeImage` (lines 173-174). -/
def dst_image (f_path : String) : String :=
  (filepathSplit f_path).1 ++ "tmp_prew_" ++ (filepathSplit f_path).2

/-- The destination key of `uploadS3Prew` (lines 206-208). -/
def new_key (prew_file src_bucket rewrite_part root_folder preset_name : String) : String :=
  let replacement := tmp ++ src_bucket ++ "/" ++ rewrite_part ++ "/"
  let new_key_filename := stringsReplace prew_file replacement ""
  root_folder ++ "/" ++ preset_name ++ "/" ++ stringsReplace new_key_filename "tmp_prew_" ""

/-! ## Bytes and base64 (Go `encoding/base64`, `StdEncoding`) -/

/-- A byte. -/
abbrev Byte := Fin 256

/-- A byte sequence: a file's content, a buffer. -/
abbrev Bytes := List Byte

/-- The alphabet of `base64.StdEncoding`. -/
def encodeStd : List Char :=
  "ABCDEFGHIJKLMNOPQRSTUVWXYZabcdefghijklmnopqrstuvwxyz0123456789+/".data

/-- The lookup `enc.encode[v & 0x3F]`. -/
def encChar (v : Nat) : Char := encodeStd.getD (v % 64) 'A'

/-- The inverse table of the decoder: the 6-bit value of an alphabet character. -/
def decChar (c : Char) : Option Nat :=
  if encodeStd.indexOf c < 64 then some (encodeStd.indexOf c) else none

/-- The conversion `byte(v)`: the low 8 bits. -/
def byteOf (v : Nat) : Byte := ⟨v % 256, Nat.mod_lt v (by decide)⟩

/-- The encoder of `StdEncoding.EncodeToString`: three bytes give four characters, a
last block of one or two bytes is padded with `=`. -/
def base64EncodeList : Bytes → List Char
  | a :: b :: c :: rest =>
    encChar ((a.val * 65536 + b.val * 256 + c.val) / 262144) ::
    encChar ((a.val * 65536 + b.val * 256 + c.val) / 4096) ::
    encChar ((a.val * 65536 + b.val * 256 + c.val) / 64) ::
    encChar (a.val * 65536 + b.val * 256 + c.val) :: base64EncodeList rest
  | [a, b] =>
    [encChar ((a.val * 65536 + b.val * 256) / 262144),
     encChar ((a.val * 65536 + b.val * 256) / 4096),
     encChar ((a.val * 65536 + b.val * 256) / 64), '=']
  | [a] =>
    [encChar ((a.val * 65536) / 262144), encChar ((a.val * 65536) / 4096), '=', '=']
  | [] => []

/-- The call `base64.StdEncoding.EncodeToString(buf)`. -/
def base64Encode (buf : Bytes) : String := ⟨base64EncodeList buf⟩

/-- The decoder of `StdEncoding.DecodeString` on a text without line breaks: four
characters give three bytes, padding is accepted in the last block only. -/
def base64DecodeList : List Char → Option Bytes
  | [] => some []
  | c0 :: c1 :: c2 :: c3 :: rest =>
    match decChar c0, decChar c1 with
    | some s0, some s1 =>
      if c2 = '=' ∧ c3 = '=' ∧ rest = [] then
        some [byteOf ((s0 * 262144 + s1 * 4096) / 65536)]
      else
        match decChar c2 with
        | none => none
        | some s2 =>
          if c3 = '=' ∧ rest = [] then
            some [byteOf ((s0 * 262144 + s1 * 4096 + s2 * 64) / 65536),
                  byteOf ((s0 * 262144 + s1 * 4096 + s2 * 64) / 256)]
          else
            match decChar c3, base64DecodeList rest with
            | some s3, some more =>
              some (byteOf ((s0 * 262144 + s1 * 4096 + s2 * 64 + s3) / 65536) ::
                    byteOf ((s0 * 262144 + s1 * 4096 + s2 * 64 + s3) / 256) ::
                    byteOf (s0 * 262144 + s1 * 4096 + s2 * 64 + s3) :: more)
            | _, _ => none
    | _, _ => none
  | _ => none

/-- The call `base64.StdEncoding.DecodeString(s)`: carriage returns and line feeds are
skipped, the rest is decoded; `none` is a decoding error. -/
def base64Decode (s : String) : Option Bytes :=
  base64DecodeList (s.data.filter (fun c => c != '\r' && c != '\n'))

/-! ## The data of `main.go` -/

/-- The type `Request` (lines 32-40). -/
structure Request where
  Src_key : String
  Src_bucket : String
  Dst_bucket : String
  Root_folder : String
  Preset_name : String
  Rewrite_part : String
  Img_width : Int
deriving DecidableEq, Repr

/-- The type `Response` (lines 42-48). -/
structure Response where
  Status : Bool
  Key : String
  ContentType : String
  Data : String
  Error_msg : String
deriving DecidableEq, Repr

/-- The type `Resize_result` (lines 50-54). -/
structure Resize_result where
  Key : String
  ContentType : String
  Data : String
deriving DecidableEq, Repr

/-- A non-nil Go `error`; a Go value of type `error` is an `Option Error`. -/
structure Error where
  msg : String
deriving DecidableEq, Repr

/-! ## The world outside the program -/

/-- A decoded raster image (`image.Image`). -/
structure Image where
  width : Int
  height : Int
  pixels : Bytes
deriving DecidableEq, Repr

/-- The file formats of `imaging` (`imaging.Format`). -/
inductive Format where
  | JPEG
  | PNG
  | GIF
  | TIFF
  | BMP
deriving DecidableEq, Repr

/-- The function `imaging.FormatFromExtension`: the format named by a file name
extension, whatever its case. -/
def formatFromExtension (ext : String) : Option Format :=
  let e : String := ⟨(trimDot ext).data.map goLower⟩
  if e = "jpg" ∨ e = "jpeg" then some .JPEG
  else if e = "png" then some .PNG
  else if e = "gif" then some .GIF
  else if e = "tif" ∨ e = "tiff" then some .TIFF
  else if e = "bmp" then some .BMP
  else none

/-- The function `imaging.FormatFromFilename`. -/
def formatFromFilename (filename : String) : Option Format :=
  formatFromExtension (filepathExt filename)

/-- The fields of the `s3manager.UploadInput` the program fills in; `Body` is the
content of the file handed over.  In `World.uploads` an entry is an object as S3
stores it. -/
structure UploadInput where
  ACL : String
  Bucket : String
  Key : String
  ContentType : String
  Body : Bytes
deriving DecidableEq, Repr

/-- A call of one of the four stage functions, with its arguments. -/
inductive Call where
  | getSource (sr_key sr_bucket : String)
  | checkIsImage (f_path : String)
  | resizeImage (f_path : String) (width : Int)
  | uploadS3Prew (prew_file content_type src_bucket rewrite_part dst_bucket
      root_folder preset_name : String)
deriving DecidableEq, Repr

/-- The state the program acts on: the regular files of the staging filesystem, the
objects uploaded so far, and a log of the stage functions called so far (the log is
bookkeeping of the model: each stage function records its call on entry). -/
structure World where
  files : List (String × Bytes)
  uploads : List UploadInput
  calls : List Call
deriving DecidableEq, Repr

/-- The content of the file at `path`, if there is one. -/
def World.file (w : World) (path : String) : Option Bytes := w.files.lookup path

/-- The file at `path` is created or overwritten with `content`. -/
def World.writeFile (w : World) (path : String) (content : Bytes) : World :=
  { w with files := (path, content) :: w.files.filter (fun f => f.1 != path) }

/-- The file at `path` is deleted. -/
def World.removeFile (w : World) (path : String) : World :=
  { w with files := w.files.filter (fun f => f.1 != path) }

/-- A successful upload: the object is stored in the destination store, under the
cleaned key. -/
def World.putObject (w : World) (input : UploadInput) : World :=
  { w with uploads := w.uploads ++ [{ input with Key := cleanKey input.Key }] }

/-- A stage function records that it was called. -/
def World.log (w : World) (c : Call) : World :=
  { w with calls := w.calls ++ [c] }

/-- What the program cannot decide: the failures of the operating system and of S3,
the content of the source bucket, and what the libraries `filetype` and `imaging`
compute. -/
structure Env where
  /-- The function `filepath.Dir`. -/
  filepathDir : String → String
  /-- The error of `os.MkdirAll(dir, os.ModePerm)`. -/
  mkdirAllErr : World → String → Option Error
  /-- The error of `os.Create(path)`. -/
  createErr : World → String → Option Error
  /-- The call `downloader.Download` for a bucket and a key: the bytes written to the
  file and the error. -/
  download : World → String → String → Bytes × Option Error
  /-- A failure of `os.Stat(path)` other than "the file does not exist". -/
  statErr : World → String → Option Error
  /-- A failure of `os.Remove(path)` on a file that exists. -/
  removeErr : World → String → Option Error
  /-- A failure to open a file that exists. -/
  openErr : World → String → Option Error
  /-- The call `filetype.Match(buf)`: `kind.MIME.Value` and the error. -/
  filetypeMatch : Bytes → String × Option Error
  /-- The decoder behind `imaging.Open`. -/
  imagingDecode : Bytes → Except Error Image
  /-- The pixels of `imaging.Resize` for a source image and a target size (Lanczos
  resampling). -/
  resample : Image → Int → Int → Bytes
  /-- The encoder behind `imaging.Save`, for a format, an image and the JPEG quality
  of the options: the bytes written and the error. -/
  imagingEncode : Format → Image → Nat → Bytes × Option Error
  /-- The error of `uploader.Upload(input)`. -/
  uploadErr : World → UploadInput → Option Error

/-- The call `os.Stat(path)`, as far as `fileExists` looks at it: `none` when it
succeeds, otherwise the error and whether `os.IsNotExist` holds of it. -/
def osStat (env : Env) (w : World) (path : String) : Option (Error × Bool) :=
  match env.statErr w path with
  | some e => some (e, false)
  | none =>
    if (w.file path).isSome then none
    else some (⟨"stat " ++ path ++ ": no such file or directory"⟩, true)

/-- The call `os.Remove(path)`. -/
def osRemove (env : Env) (path : String) (w : World) : Option Error × World :=
  if (w.file path).isSome then
    match env.removeErr w path with
    | some e => (some e, w)
    | none => (none, w.removeFile path)
  else (some ⟨"remove " ++ path ++ ": no such file or directory"⟩, w)

/-- The call `os.Open(path)`: the content of the file opened, or the error. -/
def osOpen (env : Env) (w : World) (path : String) : Except Error Bytes :=
  match w.file path with
  | none => .error ⟨"open " ++ path ++ ": no such file or directory"⟩
  | some content =>
    match env.openErr w path with
    | some e => .error e
    | none => .ok content

/-- The call `ioutil.ReadFile(path)` with its error discarded (line 152): the content,
or an empty buffer. -/
def readFile (env : Env) (w : World) (path : String) : Bytes :=
  match osOpen env w path with
  | .ok content => content
  | .error _ => []

/-- The call `imaging.Open(path)`: the file is opened and decoded. -/
def imagingOpen (env : Env) (w : World) (path : String) : Except Error Image :=
  match osOpen env w path with
  | .error e => .error e
  | .ok content => env.imagingDecode content

/-- The call `imaging.Resize(img, width, height, imaging.Lanczos)`, as far as the size
of its result goes: a negative size, a size of 0 by 0 and an empty source give an
empty image; a width or a height of 0 is derived from the other one and the ratio of
the source, rounded to the nearest integer and at least 1.  The library computes the
ratio in `float64`, which is exact for the sizes of images. -/
def imagingResize (env : Env) (img : Image) (width height : Int) : Image :=
  if width < 0 ∨ height < 0 then ⟨0, 0, []⟩
  else if width = 0 ∧ height = 0 then ⟨0, 0, []⟩
  else if img.width ≤ 0 ∨ img.height ≤ 0 then ⟨0, 0, []⟩
  else
    let dstW := if width = 0 then max 1 (roundDiv (height * img.width) img.height) else width
    let dstH := if height = 0 then max 1 (roundDiv (dstW * img.height) img.width) else height
    ⟨dstW, dstH, env.resample img dstW dstH⟩

/-- The call `imaging.Save(img, filename, imaging.JPEGQuality(quality))`: the format is
the one the extension of the file name stands for (an error without one), the file is
created and the image encoded into it. -/
def imagingSave (env : Env) (img : Image) (filename : String) (quality : Nat) (w : World) :
    Option Error × World :=
  match formatFromFilename filename with
  | none => (some ⟨"imaging: unsupported image format"⟩, w)
  | some format =>
    match env.createErr w filename with
    | some err => (some err, w)
    | none =>
      ((env.imagingEncode format img quality).2,
       w.writeFile filename (env.imagingEncode format img quality).1)

/-- A `Read(buf)` on a freshly opened regular file of content `content`: the buffer
is filled from the start of the file, as far as the content goes. -/
def readInto (buf content : Bytes) : Bytes :=
  content.take buf.length ++ buf.drop content.length

/-! ## The stage functions of `main.go` -/

/-- The function `getSource` (lines 111-137): the source object is downloaded to
`/tmp/<bucket>/<key>`.  `os.Create` leaves an empty file, the download fills it. -/
def getSource (env : Env) (sr_key sr_bucket : String) (w : World) :
    (String × Option Error) × World :=
  let w0 := w.log (Call.getSource sr_key sr_bucket)
  let path := local_file sr_key sr_bucket
  let dir := env.filepathDir path
  match env.mkdirAllErr w0 dir with
  | some err => (("", some err), w0)
  | none =>
    match env.createErr w0 path with
    | some err => (("", some err), w0)
    | none =>
      let w1 := w0.writeFile path []
      match env.download w1 sr_bucket sr_key with
      | (written, some _) =>
        (("", some ⟨"can't download source"⟩), w1.writeFile path written)
      | (written, none) => ((path, none), w1.writeFile path written)

/-- The function `fileExists` (lines 139-148). -/
def fileExists (env : Env) (path : String) (w : World) : Bool × Option Error :=
  match osStat env w path with
  | none => (true, none)
  | some (err, isNotExist) => if isNotExist then (false, none) else (true, some err)

/-- The function `checkIsImage` (lines 150-164). -/
def checkIsImage (env : Env) (f_path : String) (w : World) : (Bool × String) × World :=
  let w0 := w.log (Call.checkIsImage f_path)
  let buf := readFile env w0 f_path
  let kind := (env.filetypeMatch buf).1
  let unknown := (env.filetypeMatch buf).2
  if unknown ≠ none then ((false, ""), w0)
  else if kind ≠ "image/jpeg" ∧ kind ≠ "image/png" then ((false, ""), w0)
  else ((true, kind), w0)

/-- The function `resizeImage` (lines 166-192).  The error of `fileExists` is not looked
at (line 176), as in the source. -/
def resizeImage (env : Env) (f_path : String) (width : Int) (w : World) :
    (String × Option Error) × World :=
  let w0 := w.log (Call.resizeImage f_path width)
  match imagingOpen env w0 f_path with
  | .error err => (("", some err), w0)
  | .ok img =>
    let dst := dst_image f_path
    let dst_exist := (fileExists env dst w0).1
    let removed : Option Error × World :=
      if dst_exist then osRemove env dst w0 else (none, w0)
    match removed with
    | (some r_err, w1) => (("", some r_err), w1)
    | (none, w1) =>
      let thumb := imagingResize env img width 0
      match imagingSave env thumb dst 70 w1 with
      | (some rs_err, w2) => (("", some rs_err), w2)
      | (none, w2) => ((dst, none), w2)

/-- The function `uploadS3Prew` (lines 194-239).  The body of the upload is the content
of the opened file; `uploader.Upload` reads it by offset, so the `Read` of line 231
starts at the beginning of the file, and `up_file.Stat()` gives the length of the
content. -/
def uploadS3Prew (env : Env) (prew_file content_type src_bucket rewrite_part dst_bucket
    root_folder preset_name : String) (w : World) : (Resize_result × Option Error) × World :=
  let w0 := w.log (Call.uploadS3Prew prew_file content_type src_bucket rewrite_part
    dst_bucket root_folder preset_name)
  match osOpen env w0 prew_file with
  | .error err => ((⟨"", "", ""⟩, some err), w0)
  | .ok up_file =>
    let key := new_key prew_file src_bucket rewrite_part root_folder preset_name
    let input : UploadInput := ⟨"public-read", dst_bucket, key, content_type, up_file⟩
    match env.uploadErr w0 input with
    | some err => ((⟨"", "", ""⟩, some err), w0)
    | none =>
      let w1 := w0.putObject input
      let size := up_file.length
      let buf := readInto (List.replicate size 0) up_file
      let imgBase64Str := base64Encode buf
      ((⟨key, content_type, imgBase64Str⟩, none), w1)

/-- The function `handle` (lines 60-109).  The inner `err` of line 77 is Go's
shadowing declaration, and line 88 assigns to it. -/
def handle (env : Env) (request : Request) (w : World) : (Response × Option Error) × World :=
  let new_key : Resize_result := ⟨"", "", ""⟩
  match getSource env request.Src_key request.Src_bucket w with
  | ((source_file_path, err), w1) =>
    if err ≠ none then
      (({ Key := "", ContentType := "", Data := "", Status := false,
          Error_msg := "File " ++ request.Src_key ++ " not exists in " ++
            request.Src_bucket ++ "" }, err), w1)
    else
      match checkIsImage env source_file_path w1 with
      | ((is_image, content_type), w2) =>
        if err = none ∧ is_image = true then
          match resizeImage env source_file_path request.Img_width w2 with
          | ((prew_file, err), w3) =>
            if err ≠ none then
              (({ Key := "", ContentType := "", Data := "", Status := false,
                  Error_msg := "File " ++ request.Src_key ++ " is not image:" ++
                    content_type ++ " OR resize error" }, err), w3)
            else
              match uploadS3Prew env prew_file content_type request.Src_bucket
                  request.Rewrite_part request.Dst_bucket request.Root_folder
                  request.Preset_name w3 with
              | ((new_key, err), w4) =>
                if err ≠ none then
                  (({ Key := "", ContentType := "", Data := "", Status := false,
                      Error_msg := "Unable to upload " ++ request.Dst_bucket ++ "" },
                    err), w4)
                else
                  let w5 := (osRemove env source_file_path w4).2
                  let w6 := (osRemove env prew_file w5).2
                  (({ Key := new_key.Key, ContentType := new_key.ContentType,
                      Data := new_key.Data, Status := true, Error_msg := "" }, none), w6)
        else
          (({ Key := new_key.Key, ContentType := new_key.ContentType,
              Data := new_key.Data, Status := true, Error_msg := "" }, none), w2)

/-- The calls of stage functions recorded between two states of the world. -/
def callsBetween (before after : World) : List Call :=
  after.calls.drop before.calls.length

/-- The call is a call of `resizeImage`. -/
def Call.isResizeImage : Call → Bool
  | .resizeImage _ _ => true
  | _ => false

/-- The call is a call of `uploadS3Prew`. -/
def Call.isUploadS3Prew : Call → Bool
  | .uploadS3Prew _ _ _ _ _ _ _ => true
  | _ => false

/-- The call is a call of `checkIsImage`. -/
def Call.isCheckIsImage : Call → Bool
  | .checkIsImage _ => true
  | _ => false

/-! ## A concrete environment, for running the program on examples -/

/-- A JPEG file of 160 bytes: a grey image of 16 by 8 pixels (one component, baseline,
quality 70). -/
def jpegBytes : Bytes :=
  [
   0xFF, 0xD8, 0xFF, 0xE0, 0x00, 0x10, 0x4A, 0x46, 0x49, 0x46, 0x00, 0x01, 0x01, 0x00,
   0x00, 0x01, 0x00, 0x01, 0x00, 0x00, 0xFF, 0xDB, 0x00, 0x43, 0x00, 0x0A, 0x07, 0x07,
   0x08, 0x07, 0x06, 0x0A, 0x08, 0x08, 0x08, 0x0B, 0x0A, 0x0A, 0x0B, 0x0E, 0x18, 0x10,
   0x0E, 0x0D, 0x0D, 0x0E, 0x1D, 0x15, 0x16, 0x11, 0x18, 0x23, 0x1F, 0x25, 0x24, 0x22,
   0x1F, 0x22, 0x21, 0x26, 0x2B, 0x37, 0x2F, 0x26, 0x29, 0x34, 0x29, 0x21, 0x22, 0x30,
   0x41, 0x31, 0x34, 0x39, 0x3B, 0x3E, 0x3E, 0x3E, 0x25, 0x2E, 0x44, 0x49, 0x43, 0x3C,
   0x48, 0x37, 0x3D, 0x3E, 0x3B, 0xFF, 0xC0, 0x00, 0x0B, 0x08, 0x00, 0x08, 0x00, 0x10,
   0x01, 0x01, 0x11, 0x00, 0xFF, 0xC4, 0x00, 0x15, 0x00, 0x01, 0x01, 0x00, 0x00, 0x00,
   0x00, 0x00, 0x00, 0x00, 0x00, 0x00, 0x00, 0x00, 0x00, 0x00, 0x00, 0x00, 0x01, 0xFF,
   0xC4, 0x00, 0x14, 0x10, 0x01, 0x00, 0x00, 0x00, 0x00, 0x00, 0x00, 0x00, 0x00, 0x00,
   0x00, 0x00, 0x00, 0x00, 0x00, 0x00, 0x00, 0xFF, 0xDA, 0x00, 0x08, 0x01, 0x01, 0x00,
   0x00, 0x3F, 0x00, 0x83, 0xFF, 0xD9]

/-- A PNG file of 141 bytes: a black image of 1000 by 500 pixels. -/
def pngBytes : Bytes :=
  [
   0x89, 0x50, 0x4E, 0x47, 0x0D, 0x0A, 0x1A, 0x0A, 0x00, 0x00, 0x00, 0x0D, 0x49, 0x48,
   0x44, 0x52, 0x00, 0x00, 0x03, 0xE8, 0x00, 0x00, 0x01, 0xF4, 0x01, 0x00, 0x00, 0x00,
   0x00, 0x86, 0x53, 0x3A, 0x80, 0x00, 0x00, 0x00, 0x54, 0x49, 0x44, 0x41, 0x54, 0x78,
   0xDA, 0xED, 0xC1, 0x31, 0x01, 0x00, 0x00, 0x00, 0xC2, 0xA0, 0xF5, 0x4F, 0x6D, 0x06,
   0x7F, 0xA0, 0x00, 0x00, 0x00, 0x00, 0x00, 0x00, 0x00, 0x00, 0x00, 0x00, 0x00, 0x00,
   0x00, 0x00, 0x00, 0x00, 0x00, 0x00, 0x00, 0x00, 0x00, 0x00, 0x00, 0x00, 0x00, 0x00,
   0x00, 0x00, 0x00, 0x00, 0x00, 0x00, 0x00, 0x00, 0x00, 0x00, 0x00, 0x00, 0x00, 0x00,
   0x00, 0x00, 0x00, 0x00, 0x00, 0x00, 0x00, 0x00, 0x00, 0x00, 0x00, 0x00, 0x00, 0x00,
   0x00, 0x00, 0x00, 0x00, 0x00, 0x00, 0x00, 0x3E, 0x03, 0xF6, 0x18, 0x00, 0x01, 0xEA,
   0xC9, 0xBB, 0xE6, 0x00, 0x00, 0x00, 0x00, 0x49, 0x45, 0x4E, 0x44, 0xAE, 0x42, 0x60, 0x82]

/-- A PNG file of 69 bytes: a black image of 1000 pixels by 1 pixel. -/
def flatPngBytes : Bytes :=
  [
   0x89, 0x50, 0x4E, 0x47, 0x0D, 0x0A, 0x1A, 0x0A, 0x00, 0x00, 0x00, 0x0D, 0x49, 0x48,
   0x44, 0x52, 0x00, 0x00, 0x03, 0xE8, 0x00, 0x00, 0x00, 0x01, 0x01, 0x00, 0x00, 0x00,
   0x00, 0x65, 0x7B, 0xB9, 0x9E, 0x00, 0x00, 0x00, 0x0C, 0x49, 0x44, 0x41, 0x54, 0x08,
   0xD7, 0x63, 0x60, 0x18, 0x48, 0x00, 0x00, 0x00, 0x7E, 0x00, 0x01, 0xFD, 0xB5, 0x37,
   0x52, 0x00, 0x00, 0x00, 0x00, 0x49, 0x45, 0x4E, 0x44, 0xAE, 0x42, 0x60, 0x82]

/-- A truncated JPEG file: the signature only. -/
def brokenBytes : Bytes := [0xFF, 0xD8, 0xFF]

/-- A plain text file: `hello`. -/
def textBytes : Bytes := [0x68, 0x65, 0x6C, 0x6C, 0x6F]

/-- What the example encoder writes for a JPEG: the start of a JPEG file, then the low
bytes of the width and of the height, in place of the compressed data. -/
def thumbBytes (img : Image) : Bytes :=
  [0xFF, 0xD8, 0xFF, byteOf img.width.toNat, byteOf img.height.toNat]

/-- What the example encoder writes for a PNG: the start of a PNG file, then the low
bytes of the width and of the height, in place of the chunks. -/
def pngThumbBytes (img : Image) : Bytes :=
  [0x89, 0x50, 0x4E, 0x47, byteOf img.width.toNat, byteOf img.height.toNat]

/-- An environment in which a file whose name is not empty can be created and the other
local operations succeed; the bucket `in` holds the JPEG at `a/b.jpg` and
`a/tmp_prew_b.jpg`, a truncated JPEG at `a/broken.jpg`, the PNG at `a/c.png`, the flat
PNG at `a/flat.png` and a text at `a/notes.txt`; the three image files decode to their
sizes and nothing else in the bucket decodes; the pixels are left out and an encoded
image is cut down to the signature of its format and its size; and every bucket but
`unreachable` accepts uploads. -/
def demoEnv : Env where
  filepathDir := fun path => (filepathSplit path).1
  mkdirAllErr := fun _ _ => none
  createErr := fun _ path =>
    if (filepathSplit path).2 = "" then some ⟨"open " ++ path ++ ": is a directory"⟩
    else none
  download := fun _ bucket key =>
    if bucket = "in" ∧ (key = "a/b.jpg" ∨ key = "a/tmp_prew_b.jpg") then (jpegBytes, none)
    else if bucket = "in" ∧ key = "a/broken.jpg" then (brokenBytes, none)
    else if bucket = "in" ∧ key = "a/c.png" then (pngBytes, none)
    else if bucket = "in" ∧ key = "a/flat.png" then (flatPngBytes, none)
    else if bucket = "in" ∧ key = "a/notes.txt" then (textBytes, none)
    else ([], some ⟨"NoSuchKey: The specified key does not exist."⟩)
  statErr := fun _ _ => none
  removeErr := fun _ _ => none
  openErr := fun _ _ => none
  filetypeMatch := fun buf =>
    if buf = [] then ("", some ⟨"Empty buffer"⟩)
    else if buf.take 3 = [0xFF, 0xD8, 0xFF] then ("image/jpeg", none)
    else if buf.take 4 = [0x89, 0x50, 0x4E, 0x47] then ("image/png", none)
    else ("", none)
  imagingDecode := fun buf =>
    if buf = jpegBytes then .ok ⟨16, 8, []⟩
    else if buf = pngBytes then .ok ⟨1000, 500, []⟩
    else if buf = flatPngBytes then .ok ⟨1000, 1, []⟩
    else if buf.take 3 = [0xFF, 0xD8, 0xFF] then .error ⟨"unexpected EOF"⟩
    else .error ⟨"image: unknown format"⟩
  resample := fun _ _ _ => []
  imagingEncode := fun format img _ =>
    match format with
    | .JPEG => (thumbBytes img, none)
    | .PNG => (pngThumbBytes img, none)
    | .GIF => ([0x47, 0x49, 0x46, 0x38, 0x39, 0x61, byteOf img.width.toNat,
        byteOf img.height.toNat], none)
    | .TIFF => ([0x49, 0x49, 0x2A, 0x00, byteOf img.width.toNat, byteOf img.height.toNat],
        none)
    | .BMP => ([0x42, 0x4D, byteOf img.width.toNat, byteOf img.height.toNat], none)
  uploadErr := fun _ input =>
    if input.Bucket = "unreachable" then some ⟨"RequestError: send request failed"⟩ else none

/-- The world before a run: an empty staging area, nothing uploaded, nothing called. -/
def emptyWorld : World := ⟨[], [], []⟩

/-- The request of the end-to-end scenario 1 of the specification. -/
def demoRequest : Request :=
  ⟨"a/b.jpg", "in", "out", "thumbs", "w200", "a", 200⟩

/-- The scenario with a text file as source. -/
def textRequest : Request :=
  ⟨"a/notes.txt", "in", "out", "thumbs", "w200", "a", 200⟩

/-- The scenario with a source key that is not in the bucket. -/
def missingRequest : Request :=
  ⟨"a/missing.jpg", "in", "out", "thumbs", "w200", "a", 200⟩

/-- The scenario with a destination bucket that cannot be reached. -/
def unreachableRequest : Request :=
  ⟨"a/b.jpg", "in", "unreachable", "thumbs", "w200", "a", 200⟩

/-- The scenario with a PNG source. -/
def pngRequest : Request :=
  ⟨"a/c.png", "in", "out", "thumbs", "w200", "a", 200⟩

/-- The scenario 1 request with width 0. -/
def zeroWidthRequest : Request :=
  ⟨"a/b.jpg", "in", "out", "thumbs", "w200", "a", 0⟩

/-- A source object whose file name starts with the marker `tmp_prew_`. -/
def markerRequest : Request :=
  ⟨"a/tmp_prew_b.jpg", "in", "out", "thumbs", "w200", "a", 200⟩

/-- The scenario with the flat PNG as source. -/
def flatRequest : Request :=
  ⟨"a/flat.png", "in", "out", "thumbs", "w200", "a", 200⟩

/-- The scenario with a truncated JPEG as source. -/
def brokenRequest : Request :=
  ⟨"a/broken.jpg", "in", "out", "thumbs", "w200", "a", 200⟩

/-- The world once `getSource` has staged `content` for `key` of the bucket `in`,
starting from the empty world. -/
def stagedWorld (key : String) (content : Bytes) : World :=
  ⟨[(local_file key "in", content)], [], [Call.getSource key "in"]⟩

/-- The staged world once `checkIsImage` has run. -/
def sniffedWorld (key : String) (content : Bytes) : World :=
  (stagedWorld key content).log (Call.checkIsImage (local_file key "in"))

/-- The sniffed world once `resizeImage` has written the thumbnail `thumb`. -/
def resizedWorld (key : String) (content thumb : Bytes) (width : Int) : World :=
  ((sniffedWorld key content).log (Call.resizeImage (local_file key "in") width)).writeFile
    (dst_image (local_file key "in")) thumb

/-- A failure answer of `handle`: a non-nil error and a response with `status=false`,
a non-empty message and empty `key`, `content_type` and `data`. -/
def FailureAnswer (answer : Response × Option Error) : Prop :=
  answer.2 ≠ none ∧ answer.1.Status = false ∧ answer.1.Error_msg ≠ "" ∧
    answer.1.Key = "" ∧ answer.1.ContentType = "" ∧ answer.1.Data = ""

instance (answer : Response × Option Error) : Decidable (FailureAnswer answer) := by
  unfold FailureAnswer; infer_instance

set_option maxRecDepth 10000

/-! ## base64 round trip -/

theorem decChar_getD : ∀ i, i < 64 → decChar (encodeStd.getD i 'A') = some i := by
  decide

theorem encChar_not_special : ∀ i, i < 64 →
    encodeStd.getD i 'A' ≠ '=' ∧ encodeStd.getD i 'A' ≠ '\r' ∧ encodeStd.getD i 'A' ≠ '\n' := by
  decide

theorem decChar_encChar (v : Nat) : decChar (encChar v) = some (v % 64) :=
  decChar_getD (v % 64) (Nat.mod_lt v (by decide))

theorem encChar_ne_pad (v : Nat) : encChar v ≠ '=' :=
  (encChar_not_special (v % 64) (Nat.mod_lt v (by decide))).1

theorem encChar_keep (v : Nat) : (encChar v != '\r' && encChar v != '\n') = true := by
  have h := encChar_not_special (v % 64) (Nat.mod_lt v (by decide))
  have h1 : encChar v ≠ '\r' := h.2.1
  have h2 : encChar v ≠ '\n' := h.2.2
  simp [h1, h2]

theorem byteOf_eq (v : Nat) (a : Byte) (h : v % 256 = a.val) : byteOf v = a :=
  Fin.ext h

theorem base64DecodeList_encode (bs : Bytes) :
    base64DecodeList (base64EncodeList bs) = some bs := by
  induction bs using base64EncodeList.induct with
  | case1 a b c rest ih =>
    have ha := a.isLt
    have hb := b.isLt
    have hc := c.isLt
    simp only [base64EncodeList, base64DecodeList, decChar_encChar, encChar_ne_pad, ih,
      false_and, if_false]
    congr 1
    congr 1
    · apply byteOf_eq; omega
    · congr 1
      · apply byteOf_eq; omega
      · congr 1
        apply byteOf_eq; omega
  | case2 a b =>
    have ha := a.isLt
    have hb := b.isLt
    simp only [base64EncodeList, base64DecodeList, decChar_encChar, encChar_ne_pad,
      false_and, if_false, true_and, and_self, if_true]
    congr 1
    congr 1
    · apply byteOf_eq; omega
    · congr 1
      apply byteOf_eq; omega
  | case3 a =>
    have ha := a.isLt
    simp only [base64EncodeList, base64DecodeList, decChar_encChar, and_self, if_true]
    congr 1
    congr 1
    apply byteOf_eq; omega
  | case4 => rfl

theorem base64EncodeList_keep (bs : Bytes) :
    (base64EncodeList bs).filter (fun c => c != '\r' && c != '\n') = base64EncodeList bs := by
  induction bs using base64EncodeList.induct with
  | case1 a b c rest ih =>
    simp only [base64EncodeList, List.filter_cons, encChar_keep, if_true, ih]
  | case2 a b =>
    simp only [base64EncodeList, List.filter_cons, encChar_keep, if_true]
    rfl
  | case3 a =>
    simp only [base64EncodeList, List.filter_cons, encChar_keep, if_true]
    rfl
  | case4 => rfl

theorem base64Decode_encode (bs : Bytes) : base64Decode (base64Encode bs) = some bs := by
  simp only [base64Decode, base64Encode, base64EncodeList_keep, base64DecodeList_encode]

theorem readInto_full (content : Bytes) :
    readInto (List.replicate content.length 0) content = content := by
  simp [readInto]

/-! ## Replacing and splitting -/

theorem replaceScan_skip (old new xs rest : List Char) :
    replaceScan old new xs.length (xs ++ rest) = replaceScan old new 0 rest := by
  induction xs with
  | nil => rfl
  | cons x xs ih => simpa [replaceScan] using ih

theorem replaceScan_absent (old new s : List Char) (h : ¬ old <:+: s) :
    replaceScan old new 0 s = s := by
  induction s with
  | nil => rfl
  | cons c cs ih =>
    have h1 : ¬ old <+: c :: cs := fun hp => h hp.isInfix
    have h2 : ¬ old <:+: cs := fun hi => h (hi.trans (List.suffix_cons c cs).isInfix)
    simp [replaceScan, h1, ih h2]

theorem replaceScan_head (old new rest : List Char) (hne : old ≠ []) :
    replaceScan old new 0 (old ++ rest) = new ++ replaceScan old new 0 rest := by
  cases old with
  | nil => exact absurd rfl hne
  | cons c cs =>
    have hs := replaceScan_skip (c :: cs) new cs rest
    have hp2 : (c :: cs).isPrefixOf (c :: (cs ++ rest)) = true := by simp
    show replaceScan (c :: cs) new 0 (c :: (cs ++ rest)) = _
    simp only [replaceScan, hp2, if_true, List.length_cons, Nat.add_sub_cancel]
    exact congrArg (fun t => new ++ t) hs

theorem stringsReplace_scan (s old new : String) (h1 : old ≠ new) (h2 : old.data ≠ []) :
    stringsReplace s old new = ⟨replaceScan old.data new.data 0 s.data⟩ := by
  simp [stringsReplace, h1, h2]

theorem takeWhile_append_stop {α : Type} (p : α → Bool) (l1 l2 : List α) (x : α)
    (hx : p x = false) : (l1 ++ x :: l2).takeWhile p = l1.takeWhile p := by
  induction l1 with
  | nil => simp [List.takeWhile, hx]
  | cons a l ih =>
    cases ha : p a
    · simp [List.takeWhile, ha]
    · simp [List.takeWhile, ha, ih]

theorem dropWhile_head {α : Type} (p : α → Bool) (l : List α) :
    l.dropWhile p = [] ∨ ∃ x r, l.dropWhile p = x :: r ∧ p x = false := by
  induction l with
  | nil => exact Or.inl rfl
  | cons a l ih =>
    cases ha : p a
    · exact Or.inr ⟨a, l, by simp [List.dropWhile, ha], ha⟩
    · simpa [List.dropWhile, ha] using ih

theorem filepathSplit_under (A N : List Char) :
    ∃ d f, filepathSplit ⟨A ++ '/' :: N⟩ = (⟨A ++ '/' :: d⟩, ⟨f⟩) ∧ N = d ++ f ∧ '/' ∉ f ∧
      (d = [] ∨ ∃ d0, d = d0 ++ ['/']) := by
  have hsplit := List.takeWhile_append_dropWhile (fun c => c != '/') N.reverse
  have hN : N = (N.reverse.dropWhile (fun c => c != '/')).reverse ++
      (N.reverse.takeWhile (fun c => c != '/')).reverse := by
    rw [← List.reverse_append, hsplit, List.reverse_reverse]
  refine ⟨(N.reverse.dropWhile (fun c => c != '/')).reverse,
    (N.reverse.takeWhile (fun c => c != '/')).reverse, ?_, hN, ?_, ?_⟩
  · have hrev : (A ++ '/' :: N).reverse = N.reverse ++ '/' :: A.reverse := by simp
    have htake : (A ++ '/' :: N).reverse.takeWhile (fun c => c != '/') =
        N.reverse.takeWhile (fun c => c != '/') := by
      rw [hrev, takeWhile_append_stop]
      simp
    have hpath : A ++ '/' :: N =
        (A ++ '/' :: (N.reverse.dropWhile (fun c => c != '/')).reverse) ++
          (N.reverse.takeWhile (fun c => c != '/')).reverse := by
      rw [List.append_assoc, List.cons_append, ← hN]
    simp only [filepathSplit, htake]
    rw [hpath, List.take_left']
    simp only [List.length_append, List.length_cons, List.length_reverse]
    omega
  · intro hmem
    have hp := List.mem_takeWhile_imp (List.mem_reverse.mp hmem)
    simp at hp
  · rcases dropWhile_head (fun c => c != '/') N.reverse with h | ⟨x, r, h, hx⟩
    · left
      rw [h]
      rfl
    · right
      have hx2 : x = '/' := by simpa using hx
      refine ⟨r.reverse, ?_⟩
      rw [h, hx2, List.reverse_cons]

theorem marker_no_slash : '/' ∉ "tmp_prew_".data := by decide

theorem mem_of_concat_eq_append {α : Type} (l a b : List α) (x : α)
    (h : l ++ [x] = a ++ b) (hb : b ≠ []) : x ∈ b := by
  rcases List.eq_nil_or_concat b with rfl | ⟨b1, y, hb1⟩
  · exact absurd rfl hb
  · rw [List.concat_eq_append] at hb1
    subst hb1
    rw [← List.append_assoc] at h
    have hxy := (List.append_inj' h rfl).2
    simp only [List.cons.injEq, and_true] at hxy
    simp [hxy]

theorem infix_append_cases {α : Type} (sub q n : List α) (h : sub <:+: q ++ n) :
    sub <:+: q ∨ sub <:+: n ∨
      ∃ s1 s2, s1 ≠ [] ∧ s2 ≠ [] ∧ sub = s1 ++ s2 ∧ s1 <:+ q ∧ s2 <+: n := by
  obtain ⟨a, b, hab⟩ := h
  rcases List.append_eq_append_iff.mp hab with ⟨a1, hq, _⟩ | ⟨c1, hc, hn⟩
  · exact Or.inl ⟨a, a1, hq.symm⟩
  · rcases List.append_eq_append_iff.mp hc with ⟨a2, hq, hsub⟩ | ⟨c2, _, hc1⟩
    · by_cases ha2 : a2 = []
      · subst ha2
        refine Or.inr (Or.inl ⟨[], b, ?_⟩)
        simp only [List.nil_append] at hsub
        rw [hn, hsub, List.nil_append]
      · by_cases hc1 : c1 = []
        · subst hc1
          refine Or.inl ⟨a, [], ?_⟩
          simp only [List.append_nil] at hsub
          rw [hq, hsub, List.append_nil]
        · exact Or.inr (Or.inr ⟨a2, c1, ha2, hc1, hsub, ⟨a, hq.symm⟩, ⟨b, hn.symm⟩⟩)
    · refine Or.inr (Or.inl ⟨c2, b, ?_⟩)
      rw [hn, hc1]

theorem replaceScan_first (old new pre rest : List Char) (hne : old ≠ [])
    (hpre : ∀ s, s <:+ pre → s ≠ [] → ¬ old <+: s ++ (old ++ rest)) :
    replaceScan old new 0 (pre ++ (old ++ rest)) =
      pre ++ (new ++ replaceScan old new 0 rest) := by
  induction pre with
  | nil => exact replaceScan_head old new rest hne
  | cons c pre ih =>
    have h1 : ¬ old <+: c :: (pre ++ (old ++ rest)) :=
      hpre (c :: pre) (List.suffix_refl _) (List.cons_ne_nil c pre)
    have h2 : ∀ s, s <:+ pre → s ≠ [] → ¬ old <+: s ++ (old ++ rest) :=
      fun s hs => hpre s (hs.trans (List.suffix_cons c pre))
    show replaceScan old new 0 (c :: (pre ++ (old ++ rest))) = _
    simp only [replaceScan, List.isPrefixOf_iff_prefix, h1, if_false, ih h2]
    rfl

theorem no_match_before_slash (old pre rest : List Char) (hslash : '/' ∉ old)
    (hpre : pre = [] ∨ ∃ d0, pre = d0 ++ ['/']) (hin : ¬ old <:+: pre) :
    ∀ s, s <:+ pre → s ≠ [] → ¬ old <+: s ++ (old ++ rest) := by
  intro s hs hsne hp
  rcases List.prefix_or_prefix_of_prefix hp (List.prefix_append s (old ++ rest)) with h | h
  · exact hin (h.isInfix.trans hs.isInfix)
  · rcases hpre with rfl | ⟨d0, rfl⟩
    · exact hsne (List.suffix_nil.mp hs)
    · obtain ⟨t, ht⟩ := hs
      have hmem : '/' ∈ s := mem_of_concat_eq_append d0 t s '/' ht.symm hsne
      exact hslash (h.subset hmem)

theorem staging_root_not_inserted (d f : List Char) (hf : '/' ∉ f)
    (h : ¬ tmp.data <:+: d ++ f) : ¬ tmp.data <:+: d ++ ("tmp_prew_".data ++ f) := by
  have hmf : '/' ∉ "tmp_prew_".data ++ f := by
    intro hm
    rcases List.mem_append.mp hm with hm | hm
    · exact marker_no_slash hm
    · exact hf hm
  intro hin
  rcases infix_append_cases _ _ _ hin with h1 | h1 | ⟨s1, s2, _, hs2, hsub, _, hp⟩
  · exact h (h1.trans (List.prefix_append d f).isInfix)
  · exact hmf (h1.mem (by decide))
  · have hmem : '/' ∈ s2 := mem_of_concat_eq_append ['/', 't', 'm', 'p'] s1 s2 '/' hsub hs2
    exact hmf (hp.subset hmem)

/-- For a source key under the rewrite part, `R/N` with neither `/tmp/` nor `tmp_prew_`
in `N`, the key computed from the transformed staging path is `F/P/N`. -/
theorem new_key_under_rewrite_part (B R F P N : String)
    (hT : ¬ containsSub N tmp) (hM : ¬ containsSub N "tmp_prew_") :
    new_key (dst_image (local_file (R ++ "/" ++ N) B)) B R F P = F ++ "/" ++ P ++ "/" ++ N := by
  unfold containsSub at hT hM
  obtain ⟨d, f, hsplit, hN, hf, hd⟩ :=
    filepathSplit_under (tmp.data ++ B.data ++ ['/'] ++ R.data) N.data
  have hpath : local_file (R ++ "/" ++ N) B =
      ⟨(tmp.data ++ B.data ++ ['/'] ++ R.data) ++ '/' :: N.data⟩ := by
    apply String.ext
    simp [local_file]
  have hrepl : (tmp ++ B ++ "/" ++ R ++ "/").data =
      tmp.data ++ B.data ++ ['/'] ++ R.data ++ ['/'] := by
    simp
  have hne : (tmp ++ B ++ "/" ++ R ++ "/").data ≠ [] := by
    rw [hrepl]; simp
  have hne2 : tmp ++ B ++ "/" ++ R ++ "/" ≠ "" := fun e => hne (by rw [e])
  have hdst : (dst_image (local_file (R ++ "/" ++ N) B)).data =
      (tmp ++ B ++ "/" ++ R ++ "/").data ++ (d ++ ("tmp_prew_".data ++ f)) := by
    rw [dst_image, hpath, hsplit, hrepl]
    simp
  have hT2 : ¬ tmp.data <:+: d ++ ("tmp_prew_".data ++ f) :=
    staging_root_not_inserted d f hf (hN ▸ hT)
  have hrest : ¬ (tmp ++ B ++ "/" ++ R ++ "/").data <:+: d ++ ("tmp_prew_".data ++ f) := by
    intro h
    apply hT2
    refine List.IsInfix.trans ?_ h
    rw [hrepl]
    exact ⟨[], B.data ++ ['/'] ++ R.data ++ ['/'], by simp⟩
  have hfirst : stringsReplace (dst_image (local_file (R ++ "/" ++ N) B))
      (tmp ++ B ++ "/" ++ R ++ "/") "" = ⟨d ++ ("tmp_prew_".data ++ f)⟩ := by
    rw [stringsReplace_scan _ _ _ hne2 hne, hdst, replaceScan_head _ _ _ hne,
      replaceScan_absent _ _ _ hrest]
    rfl
  have hMd : ¬ "tmp_prew_".data <:+: d := fun h =>
    hM (hN ▸ h.trans (List.prefix_append d f).isInfix)
  have hMf : ¬ "tmp_prew_".data <:+: f := fun h =>
    hM (hN ▸ h.trans (List.suffix_append d f).isInfix)
  have hsecond : stringsReplace ⟨d ++ ("tmp_prew_".data ++ f)⟩ "tmp_prew_" "" = N := by
    rw [stringsReplace_scan _ _ _ (by decide) (by decide),
      replaceScan_first _ _ _ _ (by decide)
        (no_match_before_slash _ _ _ marker_no_slash hd hMd),
      replaceScan_absent _ _ _ hMf]
    apply String.ext
    simp [hN]
  simp only [new_key, hfirst, hsecond]

/-! ## The effects of the stage functions on the log and on the uploads -/

@[simp] theorem log_calls (w : World) (c : Call) : (w.log c).calls = w.calls ++ [c] := rfl

@[simp] theorem log_uploads (w : World) (c : Call) : (w.log c).uploads = w.uploads := rfl

@[simp] theorem log_files (w : World) (c : Call) : (w.log c).files = w.files := rfl

@[simp] theorem writeFile_calls (w : World) (p : String) (b : Bytes) :
    (w.writeFile p b).calls = w.calls := rfl

@[simp] theorem writeFile_uploads (w : World) (p : String) (b : Bytes) :
    (w.writeFile p b).uploads = w.uploads := rfl

@[simp] theorem removeFile_calls (w : World) (p : String) :
    (w.removeFile p).calls = w.calls := rfl

@[simp] theorem removeFile_uploads (w : World) (p : String) :
    (w.removeFile p).uploads = w.uploads := rfl

@[simp] theorem putObject_calls (w : World) (o : UploadInput) :
    (w.putObject o).calls = w.calls := rfl

@[simp] theorem putObject_uploads (w : World) (o : UploadInput) :
    (w.putObject o).uploads = w.uploads ++ [{ o with Key := cleanKey o.Key }] := rfl

theorem writeFile_file (w : World) (p : String) (b : Bytes) :
    (w.writeFile p b).file p = some b := by
  simp [World.file, World.writeFile, List.lookup]

theorem imagingSave_calls (env : Env) (img : Image) (f : String) (q : Nat) (w : World) :
    (imagingSave env img f q w).2.calls = w.calls := by
  unfold imagingSave
  split
  · rfl
  · split <;> rfl

theorem imagingSave_uploads (env : Env) (img : Image) (f : String) (q : Nat) (w : World) :
    (imagingSave env img f q w).2.uploads = w.uploads := by
  unfold imagingSave
  split
  · rfl
  · split <;> rfl

theorem imagingSave_ok (env : Env) (img : Image) (f : String) (q : Nat) (w w2 : World)
    (h : imagingSave env img f q w = (none, w2)) :
    ∃ format, formatFromFilename f = some format ∧
      w2.file f = some (env.imagingEncode format img q).1 := by
  unfold imagingSave at h
  split at h
  · cases h
  · rename_i format hf
    split at h
    · cases h
    · simp only [Prod.mk.injEq] at h
      refine ⟨format, hf, ?_⟩
      rw [← h.2]
      exact writeFile_file _ _ _

@[simp] theorem osRemove_calls (env : Env) (p : String) (w : World) :
    (osRemove env p w).2.calls = w.calls := by
  unfold osRemove
  split
  · split <;> rfl
  · rfl

@[simp] theorem osRemove_uploads (env : Env) (p : String) (w : World) :
    (osRemove env p w).2.uploads = w.uploads := by
  unfold osRemove
  split
  · split <;> rfl
  · rfl

theorem getSource_calls (env : Env) (k b : String) (w : World) :
    (getSource env k b w).2.calls = w.calls ++ [Call.getSource k b] := by
  unfold getSource
  simp only
  split
  · rfl
  · split
    · rfl
    · split <;> rfl

theorem getSource_uploads (env : Env) (k b : String) (w : World) :
    (getSource env k b w).2.uploads = w.uploads := by
  unfold getSource
  simp only
  split
  · rfl
  · split
    · rfl
    · split <;> rfl

theorem checkIsImage_world (env : Env) (p : String) (w : World) :
    (checkIsImage env p w).2 = w.log (Call.checkIsImage p) := by
  unfold checkIsImage
  simp only
  split
  · rfl
  · split <;> rfl

theorem resizeImage_calls (env : Env) (p : String) (width : Int) (w : World) :
    (resizeImage env p width w).2.calls = w.calls ++ [Call.resizeImage p width] := by
  unfold resizeImage
  simp only
  split
  · rfl
  · rename_i img _
    split
    · rename_i h
      split at h
      · have := osRemove_calls env (dst_image p) (w.log (Call.resizeImage p width))
        rw [h] at this
        exact this
      · cases h
    · rename_i w1 h
      have hw1 : w1.calls = w.calls ++ [Call.resizeImage p width] := by
        split at h
        · have := osRemove_calls env (dst_image p) (w.log (Call.resizeImage p width))
          rw [h] at this
          exact this
        · cases h
          rfl
      have hs := imagingSave_calls env (imagingResize env img width 0) (dst_image p) 70 w1
      split
      · rename_i hsave
        rw [hsave] at hs
        exact hs.trans hw1
      · rename_i hsave
        rw [hsave] at hs
        exact hs.trans hw1

theorem resizeImage_uploads (env : Env) (p : String) (width : Int) (w : World) :
    (resizeImage env p width w).2.uploads = w.uploads := by
  unfold resizeImage
  simp only
  split
  · rfl
  · rename_i img _
    split
    · rename_i h
      split at h
      · have := osRemove_uploads env (dst_image p) (w.log (Call.resizeImage p width))
        rw [h] at this
        exact this
      · cases h
    · rename_i w1 h
      have hw1 : w1.uploads = w.uploads := by
        split at h
        · have := osRemove_uploads env (dst_image p) (w.log (Call.resizeImage p width))
          rw [h] at this
          exact this
        · cases h
          rfl
      have hs := imagingSave_uploads env (imagingResize env img width 0) (dst_image p) 70 w1
      split
      · rename_i hsave
        rw [hsave] at hs
        exact hs.trans hw1
      · rename_i hsave
        rw [hsave] at hs
        exact hs.trans hw1

theorem resizeImage_ok (env : Env) (p prew : String) (width : Int) (w w3 : World)
    (h : resizeImage env p width w = ((prew, none), w3)) :
    prew = dst_image p ∧
    ∃ img format,
      imagingOpen env (w.log (Call.resizeImage p width)) p = .ok img ∧
      formatFromFilename (dst_image p) = some format ∧
      w3.file (dst_image p) =
        some (env.imagingEncode format (imagingResize env img width 0) 70).1 := by
  unfold resizeImage at h
  simp only at h
  split at h
  · cases h
  · rename_i img hopen
    split at h
    · cases h
    · rename_i w1 _
      split at h
      · cases h
      · rename_i w2 hsave
        simp only [Prod.mk.injEq] at h
        obtain ⟨⟨hp, _⟩, hw⟩ := h
        obtain ⟨format, hf, hfile⟩ := imagingSave_ok env _ _ _ w1 w2 hsave
        subst hw
        exact ⟨hp.symm, img, format, hopen, hf, hfile⟩

theorem uploadS3Prew_calls (env : Env) (f ct sb rp db rf pn : String) (w : World) :
    (uploadS3Prew env f ct sb rp db rf pn w).2.calls =
      w.calls ++ [Call.uploadS3Prew f ct sb rp db rf pn] := by
  unfold uploadS3Prew
  simp only
  split
  · rfl
  · split <;> rfl

/-! ## The handler, branch by branch -/

theorem ne_empty_of_data (s : String) (h : s.data ≠ []) : s ≠ "" :=
  fun e => h (by rw [e])

theorem append_data_ne_nil (s t : String) (h : s.data ≠ []) : (s ++ t).data ≠ [] := by
  rw [String.data_append]
  intro e
  exact h (List.append_eq_nil.mp e).1

theorem callsBetween_append (w w1 : World) (cs : List Call) (h : w1.calls = w.calls ++ cs) :
    callsBetween w w1 = cs := by
  simp [callsBetween, h]

theorem handle_eq_fetch_fail (env : Env) (request : Request) (w w1 : World) (p : String)
    (e : Error)
    (hgs : getSource env request.Src_key request.Src_bucket w = ((p, some e), w1)) :
    handle env request w =
      ((⟨false, "", "", "",
         "File " ++ request.Src_key ++ " not exists in " ++ request.Src_bucket ++ ""⟩,
        some e), w1) := by
  simp [handle, hgs]

theorem handle_eq_skip (env : Env) (request : Request) (w w1 w2 : World) (p ct : String)
    (hgs : getSource env request.Src_key request.Src_bucket w = ((p, none), w1))
    (hck : checkIsImage env p w1 = ((false, ct), w2)) :
    handle env request w = ((⟨true, "", "", "", ""⟩, none), w2) := by
  simp [handle, hgs, hck]

theorem handle_eq_resize_fail (env : Env) (request : Request) (w w1 w2 w3 : World)
    (p ct x : String) (e : Error)
    (hgs : getSource env request.Src_key request.Src_bucket w = ((p, none), w1))
    (hck : checkIsImage env p w1 = ((true, ct), w2))
    (hrs : resizeImage env p request.Img_width w2 = ((x, some e), w3)) :
    handle env request w =
      ((⟨false, "", "", "",
         "File " ++ request.Src_key ++ " is not image:" ++ ct ++ " OR resize error"⟩,
        some e), w3) := by
  simp [handle, hgs, hck, hrs]

theorem handle_eq_upload_fail (env : Env) (request : Request) (w w1 w2 w3 w4 : World)
    (p ct prew : String) (r : Resize_result) (e : Error)
    (hgs : getSource env request.Src_key request.Src_bucket w = ((p, none), w1))
    (hck : checkIsImage env p w1 = ((true, ct), w2))
    (hrs : resizeImage env p request.Img_width w2 = ((prew, none), w3))
    (hup : uploadS3Prew env prew ct request.Src_bucket request.Rewrite_part
      request.Dst_bucket request.Root_folder request.Preset_name w3 = ((r, some e), w4)) :
    handle env request w =
      ((⟨false, "", "", "", "Unable to upload " ++ request.Dst_bucket ++ ""⟩, some e), w4) := by
  simp [handle, hgs, hck, hrs, hup]

theorem handle_eq_success (env : Env) (request : Request) (w w1 w2 w3 w4 : World)
    (p ct prew : String) (r : Resize_result)
    (hgs : getSource env request.Src_key request.Src_bucket w = ((p, none), w1))
    (hck : checkIsImage env p w1 = ((true, ct), w2))
    (hrs : resizeImage env p request.Img_width w2 = ((prew, none), w3))
    (hup : uploadS3Prew env prew ct request.Src_bucket request.Rewrite_part
      request.Dst_bucket request.Root_folder request.Preset_name w3 = ((r, none), w4)) :
    handle env request w =
      ((⟨true, r.Key, r.ContentType, r.Data, ""⟩, none),
       (osRemove env prew (osRemove env p w4).2).2) := by
  simp [handle, hgs, hck, hrs, hup]

theorem uploadS3Prew_fail_uploads (env : Env) (f ct sb rp db rf pn : String) (w : World)
    (h : (uploadS3Prew env f ct sb rp db rf pn w).1.2 ≠ none) :
    (uploadS3Prew env f ct sb rp db rf pn w).2.uploads = w.uploads := by
  unfold uploadS3Prew at h ⊢
  simp only at h ⊢
  split
  · rfl
  · split
    · rfl
    · rename_i h1 _ h2
      rw [h1] at h
      simp only [h2] at h
      exact absurd rfl h

theorem osOpen_ok (env : Env) (w : World) (path : String) (content : Bytes)
    (h : osOpen env w path = .ok content) : w.file path = some content := by
  unfold osOpen at h
  split at h
  · cases h
  · split at h
    · cases h
    · cases h
      assumption

theorem uploadS3Prew_ok (env : Env) (f ct sb rp db rf pn : String) (w w4 : World)
    (r : Resize_result)
    (h : uploadS3Prew env f ct sb rp db rf pn w = ((r, none), w4)) :
    ∃ body, w.file f = some body ∧
      r = ⟨new_key f sb rp rf pn, ct, base64Encode body⟩ ∧
      w4.uploads =
        w.uploads ++ [⟨"public-read", db, cleanKey (new_key f sb rp rf pn), ct, body⟩] := by
  unfold uploadS3Prew at h
  simp only at h
  split at h
  · cases h
  · rename_i body hopen
    split at h
    · cases h
    · have hfile := osOpen_ok env _ f body hopen
      simp only [Prod.mk.injEq] at h
      obtain ⟨⟨hr, _⟩, hw⟩ := h
      refine ⟨body, hfile, ?_, ?_⟩
      · rw [← hr, readInto_full]
      · rw [← hw]
        rfl

theorem handle_image_calls (env : Env) (request : Request) (w w1 w2 : World) (p ct : String)
    (hgs : getSource env request.Src_key request.Src_bucket w = ((p, none), w1))
    (hck : checkIsImage env p w1 = ((true, ct), w2)) :
    ∃ rest, callsBetween w (handle env request w).2 =
      [Call.getSource request.Src_key request.Src_bucket, Call.checkIsImage p,
       Call.resizeImage p request.Img_width] ++ rest := by
  have hc1 := getSource_calls env request.Src_key request.Src_bucket w
  have hw2 := checkIsImage_world env p w1
  have hc3 := resizeImage_calls env p request.Img_width w2
  rw [hgs] at hc1
  rw [hck] at hw2
  simp only at hc1 hw2
  subst hw2
  rcases hrs : resizeImage env p request.Img_width (w1.log (Call.checkIsImage p))
    with ⟨⟨prew, e⟩, w3⟩
  rw [hrs] at hc3
  simp only at hc3
  cases e with
  | some e =>
    rw [handle_eq_resize_fail env request w w1 _ w3 p ct prew e hgs hck hrs]
    refine ⟨[], ?_⟩
    apply callsBetween_append
    simp [hc3, hc1]
  | none =>
    have hc4 := uploadS3Prew_calls env prew ct request.Src_bucket request.Rewrite_part
      request.Dst_bucket request.Root_folder request.Preset_name w3
    rcases hup : uploadS3Prew env prew ct request.Src_bucket request.Rewrite_part
      request.Dst_bucket request.Root_folder request.Preset_name w3 with ⟨⟨r, e2⟩, w4⟩
    rw [hup] at hc4
    simp only at hc4
    refine ⟨[Call.uploadS3Prew prew ct request.Src_bucket request.Rewrite_part
      request.Dst_bucket request.Root_folder request.Preset_name], ?_⟩
    cases e2 with
    | some e2 =>
      rw [handle_eq_upload_fail env request w w1 _ w3 w4 p ct prew r e2 hgs hck hrs hup]
      apply callsBetween_append
      simp [hc4, hc3, hc1]
    | none =>
      rw [handle_eq_success env request w w1 _ w3 w4 p ct prew r hgs hck hrs hup]
      apply callsBetween_append
      simp [hc4, hc3, hc1]

/-! ## The claims -/

/-- C3. Fetch failure: when `getSource` returns an error, `handle` returns that very
error with `status=false`, a non-empty message and empty `key`, `content_type` and
`data`; `getSource` is the only stage function called (so neither `checkIsImage`,
`resizeImage` nor `uploadS3Prew`) and nothing is uploaded. -/
theorem handle_fetch_failure (env : Env) (request : Request) (w : World) (err : Error)
    (h : (getSource env request.Src_key request.Src_bucket w).1.2 = some err) :
    (handle env request w).1.2 = some err ∧
    FailureAnswer (handle env request w).1 ∧
    callsBetween w (handle env request w).2 =
      [Call.getSource request.Src_key request.Src_bucket] ∧
    (handle env request w).2.uploads = w.uploads := by
  have hc := getSource_calls env request.Src_key request.Src_bucket w
  have hu := getSource_uploads env request.Src_key request.Src_bucket w
  rcases hgs : getSource env request.Src_key request.Src_bucket w with ⟨⟨p, e⟩, w1⟩
  rw [hgs] at h hc hu
  simp only at h hc hu
  subst h
  rw [handle_eq_fetch_fail env request w w1 p err hgs]
  refine ⟨rfl, ⟨by simp, rfl, ?_, rfl, rfl, rfl⟩, callsBetween_append _ _ _ hc, hu⟩
  apply ne_empty_of_data
  repeat apply append_data_ne_nil
  decide

/-- C3, on an example: the key `a/missing.jpg` is not in the bucket. -/
theorem handle_fetch_failure_witness :
    (getSource demoEnv missingRequest.Src_key missingRequest.Src_bucket emptyWorld).1.2 =
        some ⟨"can't download source"⟩ ∧
    (handle demoEnv missingRequest emptyWorld).1.2 = some ⟨"can't download source"⟩ ∧
    FailureAnswer (handle demoEnv missingRequest emptyWorld).1 ∧
    callsBetween emptyWorld (handle demoEnv missingRequest emptyWorld).2 =
      [Call.getSource missingRequest.Src_key missingRequest.Src_bucket] ∧
    (handle demoEnv missingRequest emptyWorld).2.uploads = emptyWorld.uploads :=
  ⟨by decide, handle_fetch_failure demoEnv missingRequest emptyWorld _ (by decide)⟩

/-- C2. Silent skip: when the source is fetched and `checkIsImage` answers `false`,
`handle` returns a nil error and the response `status=true` with empty `key`,
`content_type`, `data` and `error`; the stage functions called are `getSource` and
`checkIsImage` only (so neither `resizeImage`, where decoding happens, nor
`uploadS3Prew`), and nothing is uploaded. -/
theorem handle_skips_non_image (env : Env) (request : Request) (w w1 : World)
    (source_file_path : String)
    (hgs : getSource env request.Src_key request.Src_bucket w = ((source_file_path, none), w1))
    (hck : (checkIsImage env source_file_path w1).1.1 = false) :
    (handle env request w).1 = (⟨true, "", "", "", ""⟩, none) ∧
    callsBetween w (handle env request w).2 =
      [Call.getSource request.Src_key request.Src_bucket,
       Call.checkIsImage source_file_path] ∧
    (∀ c ∈ callsBetween w (handle env request w).2,
      c.isResizeImage = false ∧ c.isUploadS3Prew = false) ∧
    (handle env request w).2.uploads = w.uploads := by
  have hc := getSource_calls env request.Src_key request.Src_bucket w
  have hu := getSource_uploads env request.Src_key request.Src_bucket w
  have hw := checkIsImage_world env source_file_path w1
  rw [hgs] at hc hu
  simp only at hc hu
  rcases hck2 : checkIsImage env source_file_path w1 with ⟨⟨b, ct⟩, w2⟩
  rw [hck2] at hck hw
  simp only at hck hw
  subst hck
  subst hw
  rw [handle_eq_skip env request w w1 _ source_file_path ct hgs hck2]
  have hcalls : callsBetween w (w1.log (Call.checkIsImage source_file_path)) =
      [Call.getSource request.Src_key request.Src_bucket,
       Call.checkIsImage source_file_path] := by
    apply callsBetween_append
    simp [hc]
  refine ⟨rfl, hcalls, ?_, hu⟩
  simp only [hcalls]
  intro c hcmem
  simp only [List.mem_cons, List.mem_singleton, List.not_mem_nil, or_false] at hcmem
  rcases hcmem with rfl | rfl <;> exact ⟨rfl, rfl⟩

/-- C2, on an example: the source is a text file. -/
theorem handle_skips_non_image_witness :
    getSource demoEnv textRequest.Src_key textRequest.Src_bucket emptyWorld =
      (("/tmp/in/a/notes.txt", none), stagedWorld "a/notes.txt" textBytes) ∧
    (checkIsImage demoEnv "/tmp/in/a/notes.txt" (stagedWorld "a/notes.txt" textBytes)).1.1
        = false ∧
    (handle demoEnv textRequest emptyWorld).1 = (⟨true, "", "", "", ""⟩, none) ∧
    callsBetween emptyWorld (handle demoEnv textRequest emptyWorld).2 =
      [Call.getSource textRequest.Src_key textRequest.Src_bucket,
       Call.checkIsImage "/tmp/in/a/notes.txt"] ∧
    (∀ c ∈ callsBetween emptyWorld (handle demoEnv textRequest emptyWorld).2,
      c.isResizeImage = false ∧ c.isUploadS3Prew = false) ∧
    (handle demoEnv textRequest emptyWorld).2.uploads = emptyWorld.uploads :=
  ⟨by decide, by decide,
   handle_skips_non_image demoEnv textRequest emptyWorld
     (stagedWorld "a/notes.txt" textBytes) "/tmp/in/a/notes.txt" (by decide) (by decide)⟩

/-- C4. Transform or publish failure: when the source is fetched and accepted as an
image and `resizeImage` fails, or `resizeImage` succeeds and `uploadS3Prew` fails,
`handle` returns a non-nil error and `status=false` with a non-empty message and empty
`key`, `content_type` and `data`, and nothing is uploaded; when `resizeImage` fails,
`uploadS3Prew` is not called. -/
theorem handle_transform_or_publish_failure (env : Env) (request : Request)
    (w w1 w2 : World) (p ct : String)
    (hgs : getSource env request.Src_key request.Src_bucket w = ((p, none), w1))
    (hck : checkIsImage env p w1 = ((true, ct), w2))
    (hfail : (resizeImage env p request.Img_width w2).1.2 ≠ none ∨
      ((resizeImage env p request.Img_width w2).1.2 = none ∧
       (uploadS3Prew env (resizeImage env p request.Img_width w2).1.1 ct request.Src_bucket
          request.Rewrite_part request.Dst_bucket request.Root_folder request.Preset_name
          (resizeImage env p request.Img_width w2).2).1.2 ≠ none)) :
    FailureAnswer (handle env request w).1 ∧
    (handle env request w).2.uploads = w.uploads ∧
    ((resizeImage env p request.Img_width w2).1.2 ≠ none →
      callsBetween w (handle env request w).2 =
        [Call.getSource request.Src_key request.Src_bucket, Call.checkIsImage p,
         Call.resizeImage p request.Img_width] ∧
      ∀ c ∈ callsBetween w (handle env request w).2, c.isUploadS3Prew = false) := by
  have hc1 := getSource_calls env request.Src_key request.Src_bucket w
  have hu1 := getSource_uploads env request.Src_key request.Src_bucket w
  have hw2 := checkIsImage_world env p w1
  have hc3 := resizeImage_calls env p request.Img_width w2
  have hu3 := resizeImage_uploads env p request.Img_width w2
  rw [hgs] at hc1 hu1
  rw [hck] at hw2
  simp only at hc1 hu1 hw2
  subst hw2
  rcases hrs : resizeImage env p request.Img_width (w1.log (Call.checkIsImage p))
    with ⟨⟨prew, e⟩, w3⟩
  rw [hrs] at hfail hc3 hu3
  simp only at hfail hc3 hu3
  cases e with
  | some e =>
    rw [handle_eq_resize_fail env request w w1 _ w3 p ct prew e hgs hck hrs]
    have hcalls : callsBetween w w3 =
        [Call.getSource request.Src_key request.Src_bucket, Call.checkIsImage p,
         Call.resizeImage p request.Img_width] := by
      apply callsBetween_append
      simp [hc3, hc1]
    refine ⟨⟨by simp, rfl, ?_, rfl, rfl, rfl⟩, ?_, fun _ => ⟨hcalls, ?_⟩⟩
    · apply ne_empty_of_data
      repeat apply append_data_ne_nil
      decide
    · simp [hu3, hu1]
    · simp only [hcalls]
      intro c hcmem
      simp only [List.mem_cons, List.mem_singleton, List.not_mem_nil, or_false] at hcmem
      rcases hcmem with rfl | rfl | rfl <;> rfl
  | none =>
    rcases hfail with hf | ⟨_, hf⟩
    · exact absurd rfl hf
    · have hu4 := uploadS3Prew_fail_uploads env prew ct request.Src_bucket
        request.Rewrite_part request.Dst_bucket request.Root_folder request.Preset_name w3 hf
      rcases hup : uploadS3Prew env prew ct request.Src_bucket request.Rewrite_part
        request.Dst_bucket request.Root_folder request.Preset_name w3 with ⟨⟨r, e2⟩, w4⟩
      rw [hup] at hf hu4
      simp only at hf hu4
      cases e2 with
      | none => exact absurd rfl hf
      | some e2 =>
        rw [handle_eq_upload_fail env request w w1 _ w3 w4 p ct prew r e2 hgs hck hrs hup]
        refine ⟨⟨by simp, rfl, ?_, rfl, rfl, rfl⟩, ?_, fun h => absurd rfl h⟩
        · apply ne_empty_of_data
          repeat apply append_data_ne_nil
          decide
        · simp [hu4, hu3, hu1]

/-- C4, on two examples: a destination bucket that cannot be reached (the upload
fails), and a truncated JPEG (the resize fails, `uploadS3Prew` is not called). -/
theorem handle_transform_or_publish_failure_witness :
    (getSource demoEnv "a/b.jpg" "in" emptyWorld =
        (("/tmp/in/a/b.jpg", none), stagedWorld "a/b.jpg" jpegBytes) ∧
      checkIsImage demoEnv "/tmp/in/a/b.jpg" (stagedWorld "a/b.jpg" jpegBytes) =
        ((true, "image/jpeg"), sniffedWorld "a/b.jpg" jpegBytes) ∧
      (resizeImage demoEnv "/tmp/in/a/b.jpg" 200 (sniffedWorld "a/b.jpg" jpegBytes)).1 =
        ("/tmp/in/a/tmp_prew_b.jpg", none) ∧
      (uploadS3Prew demoEnv "/tmp/in/a/tmp_prew_b.jpg" "image/jpeg" "in" "a" "unreachable"
        "thumbs" "w200"
        (resizeImage demoEnv "/tmp/in/a/b.jpg" 200 (sniffedWorld "a/b.jpg" jpegBytes)).2).1.2
        ≠ none ∧
      FailureAnswer (handle demoEnv unreachableRequest emptyWorld).1 ∧
      (handle demoEnv unreachableRequest emptyWorld).2.uploads = []) ∧
    (getSource demoEnv "a/broken.jpg" "in" emptyWorld =
        (("/tmp/in/a/broken.jpg", none), stagedWorld "a/broken.jpg" brokenBytes) ∧
      checkIsImage demoEnv "/tmp/in/a/broken.jpg" (stagedWorld "a/broken.jpg" brokenBytes) =
        ((true, "image/jpeg"), sniffedWorld "a/broken.jpg" brokenBytes) ∧
      (resizeImage demoEnv "/tmp/in/a/broken.jpg" 200
        (sniffedWorld "a/broken.jpg" brokenBytes)).1.2 ≠ none ∧
      FailureAnswer (handle demoEnv brokenRequest emptyWorld).1 ∧
      (handle demoEnv brokenRequest emptyWorld).2.uploads = [] ∧
      ∀ c ∈ callsBetween emptyWorld (handle demoEnv brokenRequest emptyWorld).2,
        c.isUploadS3Prew = false) :=
  have h1 := handle_transform_or_publish_failure demoEnv unreachableRequest emptyWorld
    (stagedWorld "a/b.jpg" jpegBytes) (sniffedWorld "a/b.jpg" jpegBytes)
    "/tmp/in/a/b.jpg" "image/jpeg" (by decide) (by decide) (Or.inr (by decide))
  have h2 := handle_transform_or_publish_failure demoEnv brokenRequest emptyWorld
    (stagedWorld "a/broken.jpg" brokenBytes) (sniffedWorld "a/broken.jpg" brokenBytes)
    "/tmp/in/a/broken.jpg" "image/jpeg" (by decide) (by decide) (Or.inl (by decide))
  ⟨⟨by decide, by decide, by decide, by decide, h1.1, h1.2.1⟩,
   ⟨by decide, by decide, by decide, h2.1, h2.2.1, (h2.2.2 (by decide)).2⟩⟩

/-- C8, as the code has it. When fetch, sniffing (accepted, with MIME type `ct`),
resize and upload all succeed, `handle` returns a nil error and `status=true` with an
empty message; `key` is the key computed by `uploadS3Prew` and passed to the upload;
`content_type` is `ct`, which is also the content type declared on the upload; the run
uploads exactly one object, to `dst_bucket` with the ACL `public-read`, stored under
that key as the S3 client cleans it; its body is the content of the transformed file,
which is the resized image encoded in the format that the extension of the file name
stands for (not always JPEG); and `data` base64-decodes to the body. -/
theorem handle_success_response (env : Env) (request : Request) (w w1 w2 w3 w4 : World)
    (p ct prew : String) (r : Resize_result)
    (hgs : getSource env request.Src_key request.Src_bucket w = ((p, none), w1))
    (hck : checkIsImage env p w1 = ((true, ct), w2))
    (hrs : resizeImage env p request.Img_width w2 = ((prew, none), w3))
    (hup : uploadS3Prew env prew ct request.Src_bucket request.Rewrite_part
      request.Dst_bucket request.Root_folder request.Preset_name w3 = ((r, none), w4)) :
    ∃ (img : Image) (format : Format) (body : Bytes),
      imagingOpen env (w2.log (Call.resizeImage p request.Img_width)) p = .ok img ∧
      formatFromFilename prew = some format ∧
      body = (env.imagingEncode format (imagingResize env img request.Img_width 0) 70).1 ∧
      w3.file prew = some body ∧
      (handle env request w).2.uploads = w.uploads ++
        [⟨"public-read", request.Dst_bucket, cleanKey (handle env request w).1.1.Key, ct,
          body⟩] ∧
      (handle env request w).1.2 = none ∧
      (handle env request w).1.1.Status = true ∧
      (handle env request w).1.1.Error_msg = "" ∧
      (handle env request w).1.1.Key =
        new_key prew request.Src_bucket request.Rewrite_part request.Root_folder
          request.Preset_name ∧
      (handle env request w).1.1.ContentType = ct ∧
      base64Decode (handle env request w).1.1.Data = some body := by
  have hu1 := getSource_uploads env request.Src_key request.Src_bucket w
  have hw2 := checkIsImage_world env p w1
  have hu3 := resizeImage_uploads env p request.Img_width w2
  rw [hgs] at hu1
  rw [hck] at hw2
  rw [hrs] at hu3
  simp only at hu1 hw2 hu3
  obtain ⟨hprew, img, format, hopen, hformat, hfile3⟩ :=
    resizeImage_ok env p prew request.Img_width w2 w3 hrs
  obtain ⟨body, hfile, hr, hu4⟩ := uploadS3Prew_ok env prew ct request.Src_bucket
    request.Rewrite_part request.Dst_bucket request.Root_folder request.Preset_name w3 w4 r hup
  have hbody : body =
      (env.imagingEncode format (imagingResize env img request.Img_width 0) 70).1 := by
    rw [hprew, hfile3] at hfile
    exact (Option.some.inj hfile).symm
  rw [handle_eq_success env request w w1 w2 w3 w4 p ct prew r hgs hck hrs hup]
  refine ⟨img, format, body, hopen, hprew ▸ hformat, hbody, hfile, ?_, rfl, rfl, rfl,
    ?_, ?_, ?_⟩
  · simp only [osRemove_uploads, hu4, hu3, hw2, log_uploads, hu1, hr]
  · rw [hr]
  · rw [hr]
  · rw [hr]
    exact base64Decode_encode body

/-- C8, as the code has it, on an example: the PNG `a/c.png`, resized to 200 by 100. -/
theorem handle_success_response_witness :
    getSource demoEnv "a/c.png" "in" emptyWorld =
      (("/tmp/in/a/c.png", none), stagedWorld "a/c.png" pngBytes) ∧
    checkIsImage demoEnv "/tmp/in/a/c.png" (stagedWorld "a/c.png" pngBytes) =
      ((true, "image/png"), sniffedWorld "a/c.png" pngBytes) ∧
    resizeImage demoEnv "/tmp/in/a/c.png" 200 (sniffedWorld "a/c.png" pngBytes) =
      (("/tmp/in/a/tmp_prew_c.png", none),
       resizedWorld "a/c.png" pngBytes (pngThumbBytes ⟨200, 100, []⟩) 200) ∧
    (uploadS3Prew demoEnv "/tmp/in/a/tmp_prew_c.png" "image/png" "in" "a" "out" "thumbs"
      "w200" (resizedWorld "a/c.png" pngBytes (pngThumbBytes ⟨200, 100, []⟩) 200)).1.2 =
      none ∧
    ∃ (img : Image) (format : Format) (body : Bytes),
      imagingOpen demoEnv
        ((sniffedWorld "a/c.png" pngBytes).log (Call.resizeImage "/tmp/in/a/c.png" 200))
        "/tmp/in/a/c.png" = .ok img ∧
      formatFromFilename "/tmp/in/a/tmp_prew_c.png" = some format ∧
      body = (demoEnv.imagingEncode format (imagingResize demoEnv img 200 0) 70).1 ∧
      (resizedWorld "a/c.png" pngBytes (pngThumbBytes ⟨200, 100, []⟩) 200).file
        "/tmp/in/a/tmp_prew_c.png" = some body ∧
      (handle demoEnv pngRequest emptyWorld).2.uploads = emptyWorld.uploads ++
        [⟨"public-read", "out", cleanKey (handle demoEnv pngRequest emptyWorld).1.1.Key,
          "image/png", body⟩] ∧
      (handle demoEnv pngRequest emptyWorld).1.2 = none ∧
      (handle demoEnv pngRequest emptyWorld).1.1.Status = true ∧
      (handle demoEnv pngRequest emptyWorld).1.1.Error_msg = "" ∧
      (handle demoEnv pngRequest emptyWorld).1.1.Key =
        new_key "/tmp/in/a/tmp_prew_c.png" "in" "a" "thumbs" "w200" ∧
      (handle demoEnv pngRequest emptyWorld).1.1.ContentType = "image/png" ∧
      base64Decode (handle demoEnv pngRequest emptyWorld).1.1.Data = some body :=
  ⟨by decide, by decide, by decide, by decide,
   handle_success_response demoEnv pngRequest emptyWorld
     (stagedWorld "a/c.png" pngBytes) (sniffedWorld "a/c.png" pngBytes)
     (resizedWorld "a/c.png" pngBytes (pngThumbBytes ⟨200, 100, []⟩) 200)
     (uploadS3Prew demoEnv "/tmp/in/a/tmp_prew_c.png" "image/png" "in" "a" "out" "thumbs"
       "w200" (resizedWorld "a/c.png" pngBytes (pngThumbBytes ⟨200, 100, []⟩) 200)).2
     "/tmp/in/a/c.png" "image/png" "/tmp/in/a/tmp_prew_c.png"
     (uploadS3Prew demoEnv "/tmp/in/a/tmp_prew_c.png" "image/png" "in" "a" "out" "thumbs"
       "w200" (resizedWorld "a/c.png" pngBytes (pngThumbBytes ⟨200, 100, []⟩) 200)).1.1
     (by decide) (by decide) (by decide) (by decide)⟩

/-- C8, against the claim. The PNG file `a/c.png`: the run succeeds, the object is
declared `image/png`, and `imaging.Save` is given the file name `tmp_prew_c.png`, whose
extension stands for PNG: the body uploaded is the PNG encoding of the resized image,
not its JPEG encoding. -/
theorem handle_png_source_is_published_as_png :
    (handle demoEnv pngRequest emptyWorld).1.2 = none ∧
    (handle demoEnv pngRequest emptyWorld).1.1.Status = true ∧
    (handle demoEnv pngRequest emptyWorld).1.1.Key = "thumbs/w200/c.png" ∧
    (handle demoEnv pngRequest emptyWorld).1.1.ContentType = "image/png" ∧
    formatFromFilename "/tmp/in/a/tmp_prew_c.png" = some Format.PNG ∧
    (handle demoEnv pngRequest emptyWorld).2.uploads =
      [⟨"public-read", "out", "thumbs/w200/c.png", "image/png",
        (demoEnv.imagingEncode Format.PNG ⟨200, 100, []⟩ 70).1⟩] ∧
    (demoEnv.imagingEncode Format.PNG ⟨200, 100, []⟩ 70).1 ≠
      (demoEnv.imagingEncode Format.JPEG ⟨200, 100, []⟩ 70).1 := by
  decide

theorem readFile_of_file (env : Env) (w : World) (c : Call) (path : String) (buf : Bytes)
    (hfile : w.file path = some buf) (hopen : env.openErr (w.log c) path = none) :
    readFile env (w.log c) path = buf := by
  have h : (w.log c).file path = some buf := hfile
  simp [readFile, osOpen, h, hopen]

theorem checkIsImage_answer (env : Env) (f_path : String) (w : World) :
    let buf := readFile env (w.log (Call.checkIsImage f_path)) f_path
    let kind := (env.filetypeMatch buf).1
    let unknown := (env.filetypeMatch buf).2
    let answer := (checkIsImage env f_path w).1
    (unknown = none ∧ (kind = "image/jpeg" ∨ kind = "image/png") → answer = (true, kind)) ∧
    (¬ (unknown = none ∧ (kind = "image/jpeg" ∨ kind = "image/png")) → answer = (false, "")) ∧
    (answer.1 = false → answer.2 = "") ∧
    (answer.1 = true → answer.2 = "image/jpeg" ∨ answer.2 = "image/png") := by
  intro buf kind unknown answer
  by_cases hu : unknown = none
  · by_cases hk : kind = "image/jpeg" ∨ kind = "image/png"
    · have ha : answer = (true, kind) := by
        have hk2 : ¬ (kind ≠ "image/jpeg" ∧ kind ≠ "image/png") := by
          intro h
          rcases hk with hk | hk
          · exact h.1 hk
          · exact h.2 hk
        show (checkIsImage env f_path w).1 = (true, kind)
        unfold checkIsImage
        simp only
        rw [if_neg (not_not.mpr hu), if_neg hk2]
      refine ⟨fun _ => ha, fun h => absurd ⟨hu, hk⟩ h, ?_, ?_⟩
      · rw [ha]; intro h; cases h
      · rw [ha]; intro _; exact hk
    · have ha : answer = (false, "") := by
        have hk2 : kind ≠ "image/jpeg" ∧ kind ≠ "image/png" :=
          ⟨fun h => hk (Or.inl h), fun h => hk (Or.inr h)⟩
        show (checkIsImage env f_path w).1 = (false, "")
        unfold checkIsImage
        simp only
        rw [if_neg (not_not.mpr hu), if_pos hk2]
      refine ⟨fun h => absurd h.2 hk, fun _ => ha, ?_, ?_⟩
      · rw [ha]; intro _; rfl
      · rw [ha]; intro h; cases h
  · have ha : answer = (false, "") := by
      show (checkIsImage env f_path w).1 = (false, "")
      unfold checkIsImage
      simp only
      rw [if_pos hu]
    refine ⟨fun h => absurd h.1 hu, fun _ => ha, ?_, ?_⟩
    · rw [ha]; intro _; rfl
    · rw [ha]; intro h; cases h

/-- C6. Format whitelist: for every content `buf` of the staged file (which
`checkIsImage` reads), `checkIsImage` answers `(true, m)` exactly when the matcher, run
on `buf`, reports no error and a kind whose MIME value `m` is `image/jpeg` or
`image/png`, and `(false, "")` in every other case; so the type is empty when the flag
is false and one of the two strings when it is true. -/
theorem checkIsImage_whitelist (env : Env) (f_path : String) (w : World) (buf : Bytes)
    (hfile : w.file f_path = some buf)
    (hopen : env.openErr (w.log (Call.checkIsImage f_path)) f_path = none) :
    ((env.filetypeMatch buf).2 = none ∧
        ((env.filetypeMatch buf).1 = "image/jpeg" ∨ (env.filetypeMatch buf).1 = "image/png") →
      (checkIsImage env f_path w).1 = (true, (env.filetypeMatch buf).1)) ∧
    (¬ ((env.filetypeMatch buf).2 = none ∧
        ((env.filetypeMatch buf).1 = "image/jpeg" ∨ (env.filetypeMatch buf).1 = "image/png")) →
      (checkIsImage env f_path w).1 = (false, "")) ∧
    ((checkIsImage env f_path w).1.1 = false → (checkIsImage env f_path w).1.2 = "") ∧
    ((checkIsImage env f_path w).1.1 = true →
      (checkIsImage env f_path w).1.2 = "image/jpeg" ∨
      (checkIsImage env f_path w).1.2 = "image/png") := by
  have h := checkIsImage_answer env f_path w
  rw [readFile_of_file env w _ f_path buf hfile hopen] at h
  exact h

/-- C6, on examples: the staged PNG is answered `(true, "image/png")`, the staged JPEG
`(true, "image/jpeg")`, the staged text `(false, "")`. -/
theorem checkIsImage_whitelist_witness :
    ((stagedWorld "a/c.png" pngBytes).file "/tmp/in/a/c.png" = some pngBytes ∧
      demoEnv.filetypeMatch pngBytes = ("image/png", none) ∧
      (checkIsImage demoEnv "/tmp/in/a/c.png" (stagedWorld "a/c.png" pngBytes)).1 =
        (true, "image/png")) ∧
    ((stagedWorld "a/b.jpg" jpegBytes).file "/tmp/in/a/b.jpg" = some jpegBytes ∧
      demoEnv.filetypeMatch jpegBytes = ("image/jpeg", none) ∧
      (checkIsImage demoEnv "/tmp/in/a/b.jpg" (stagedWorld "a/b.jpg" jpegBytes)).1 =
        (true, "image/jpeg")) ∧
    ((stagedWorld "a/notes.txt" textBytes).file "/tmp/in/a/notes.txt" = some textBytes ∧
      demoEnv.filetypeMatch textBytes = ("", none) ∧
      (checkIsImage demoEnv "/tmp/in/a/notes.txt" (stagedWorld "a/notes.txt" textBytes)).1 =
        (false, "")) :=
  ⟨⟨by decide, by decide,
    (checkIsImage_whitelist demoEnv "/tmp/in/a/c.png" (stagedWorld "a/c.png" pngBytes)
      pngBytes (by decide) (by decide)).1 ⟨by decide, Or.inr (by decide)⟩⟩,
   ⟨by decide, by decide,
    (checkIsImage_whitelist demoEnv "/tmp/in/a/b.jpg" (stagedWorld "a/b.jpg" jpegBytes)
      jpegBytes (by decide) (by decide)).1 ⟨by decide, Or.inl (by decide)⟩⟩,
   ⟨by decide, by decide,
    (checkIsImage_whitelist demoEnv "/tmp/in/a/notes.txt"
      (stagedWorld "a/notes.txt" textBytes) textBytes (by decide) (by decide)).2.1
      (by decide)⟩⟩

theorem roundDiv_eq_floor (a b : Int) (hb : 0 < b) :
    roundDiv a b = ⌊(a : ℚ) / b + 1 / 2⌋ := by
  lift b to ℕ using hb.le
  have hb0 : (b : ℚ) ≠ 0 := by
    have : (0 : ℤ) < (b : ℤ) := hb
    exact_mod_cast this.ne'
  have h : (a : ℚ) / ((b : ℤ) : ℚ) + 1 / 2 = (((2 * a + b : ℤ)) : ℚ) / ((2 * b : ℕ) : ℚ) := by
    push_cast
    field_simp
    ring
  rw [h, Rat.floor_intCast_div_natCast]
  simp [roundDiv]

/-- C5, as the code has it. Aspect-preserving resize: when the staged file decodes to
an image of width `sw > 0` and height `sh > 0`, the target width `w` is positive and
`resizeImage` succeeds, the file it produces is the encoding of the image
`imaging.Resize(img, w, 0, Lanczos)`, whose width is exactly `w` and whose height is
`round(sh * w / sw)` (nearest integer, halves up) but at least 1. -/
theorem resizeImage_thumb_size (env : Env) (f_path prew : String) (width : Int)
    (w w3 : World) (img : Image)
    (hopen : imagingOpen env (w.log (Call.resizeImage f_path width)) f_path = .ok img)
    (hsw : 0 < img.width) (hsh : 0 < img.height) (hw : 0 < width)
    (hok : resizeImage env f_path width w = ((prew, none), w3)) :
    (imagingResize env img width 0).width = width ∧
    (imagingResize env img width 0).height =
      max 1 ⌊((img.height * width : ℤ) : ℚ) / img.width + 1 / 2⌋ ∧
    ∃ format, formatFromFilename prew = some format ∧
      w3.file prew = some (env.imagingEncode format (imagingResize env img width 0) 70).1 := by
  obtain ⟨hprew, img2, format, hopen2, hformat, hfile⟩ :=
    resizeImage_ok env f_path prew width w w3 hok
  rw [hopen] at hopen2
  cases hopen2
  have h1 : ¬ width < 0 := by omega
  have h2 : ¬ img.width ≤ 0 := by omega
  have h3 : ¬ img.height ≤ 0 := by omega
  have h4 : ¬ width = 0 := by omega
  have hsize : imagingResize env img width 0 =
      ⟨width, max 1 (roundDiv (width * img.height) img.width),
        env.resample img width (max 1 (roundDiv (width * img.height) img.width))⟩ := by
    simp [imagingResize, h1, h2, h3, h4]
  refine ⟨by rw [hsize], ?_, format, hprew ▸ hformat, hprew ▸ hfile⟩
  rw [hsize, roundDiv_eq_floor _ _ hsw, mul_comm]

/-- C5, as the code has it, on an example: the PNG `a/c.png` of 1000 by 500 pixels at
width 200 gives 200 by 100. -/
theorem resizeImage_thumb_size_witness :
    imagingOpen demoEnv
      ((sniffedWorld "a/c.png" pngBytes).log (Call.resizeImage "/tmp/in/a/c.png" 200))
      "/tmp/in/a/c.png" = .ok ⟨1000, 500, []⟩ ∧
    resizeImage demoEnv "/tmp/in/a/c.png" 200 (sniffedWorld "a/c.png" pngBytes) =
      (("/tmp/in/a/tmp_prew_c.png", none),
       resizedWorld "a/c.png" pngBytes (pngThumbBytes ⟨200, 100, []⟩) 200) ∧
    (imagingResize demoEnv ⟨1000, 500, []⟩ 200 0).width = 200 ∧
    (imagingResize demoEnv ⟨1000, 500, []⟩ 200 0).height =
      max 1 ⌊((500 * 200 : ℤ) : ℚ) / (1000 : ℤ) + 1 / 2⌋ ∧
    ∃ format, formatFromFilename "/tmp/in/a/tmp_prew_c.png" = some format ∧
      (resizedWorld "a/c.png" pngBytes (pngThumbBytes ⟨200, 100, []⟩) 200).file
        "/tmp/in/a/tmp_prew_c.png" =
        some (demoEnv.imagingEncode format (imagingResize demoEnv ⟨1000, 500, []⟩ 200 0) 70).1 :=
  ⟨by rfl, by decide,
   resizeImage_thumb_size demoEnv "/tmp/in/a/c.png" "/tmp/in/a/tmp_prew_c.png" 200
     (sniffedWorld "a/c.png" pngBytes)
     (resizedWorld "a/c.png" pngBytes (pngThumbBytes ⟨200, 100, []⟩) 200)
     ⟨1000, 500, []⟩ (by rfl) (by decide) (by decide) (by decide) (by decide)⟩

/-- C5, against the claim. The PNG `a/flat.png` of 1000 pixels by 1 pixel at width 200:
`round(1 * 200 / 1000)` is 0, but the image `resizeImage` produces is 200 pixels by 1
pixel. -/
theorem resizeImage_flat_source_keeps_one_row :
    imagingOpen demoEnv
      ((sniffedWorld "a/flat.png" flatPngBytes).log
        (Call.resizeImage "/tmp/in/a/flat.png" 200))
      "/tmp/in/a/flat.png" = .ok ⟨1000, 1, []⟩ ∧
    ⌊((1 * 200 : ℤ) : ℚ) / (1000 : ℤ) + 1 / 2⌋ = 0 ∧
    imagingResize demoEnv ⟨1000, 1, []⟩ 200 0 = ⟨200, 1, []⟩ ∧
    (resizeImage demoEnv "/tmp/in/a/flat.png" 200
      (sniffedWorld "a/flat.png" flatPngBytes)).1 = ("/tmp/in/a/tmp_prew_flat.png", none) ∧
    (resizeImage demoEnv "/tmp/in/a/flat.png" 200
      (sniffedWorld "a/flat.png" flatPngBytes)).2.file "/tmp/in/a/tmp_prew_flat.png" =
      some (demoEnv.imagingEncode Format.PNG ⟨200, 1, []⟩ 70).1 :=
  ⟨by rfl, (roundDiv_eq_floor (1 * 200) 1000 (by decide)).symm.trans (by decide),
   by decide, by decide, by decide⟩

/-- C10, as the code has it. `handle` does not validate the width: whenever the source
is fetched and accepted as an image, `resizeImage` is called, right after
`checkIsImage`, with the width of the request as given, whatever its sign. -/
theorem handle_forwards_width (env : Env) (request : Request) (w w1 w2 : World)
    (p ct : String)
    (hgs : getSource env request.Src_key request.Src_bucket w = ((p, none), w1))
    (hck : checkIsImage env p w1 = ((true, ct), w2)) :
    [Call.getSource request.Src_key request.Src_bucket, Call.checkIsImage p,
      Call.resizeImage p request.Img_width] <+: callsBetween w (handle env request w).2 := by
  obtain ⟨rest, h⟩ := handle_image_calls env request w w1 w2 p ct hgs hck
  exact ⟨rest, h.symm⟩

/-- C10, as the code has it, on an example: the request of scenario 1 with width 0. -/
theorem handle_forwards_width_witness :
    getSource demoEnv zeroWidthRequest.Src_key zeroWidthRequest.Src_bucket emptyWorld =
      (("/tmp/in/a/b.jpg", none), stagedWorld "a/b.jpg" jpegBytes) ∧
    checkIsImage demoEnv "/tmp/in/a/b.jpg" (stagedWorld "a/b.jpg" jpegBytes) =
      ((true, "image/jpeg"), sniffedWorld "a/b.jpg" jpegBytes) ∧
    [Call.getSource zeroWidthRequest.Src_key zeroWidthRequest.Src_bucket,
      Call.checkIsImage "/tmp/in/a/b.jpg",
      Call.resizeImage "/tmp/in/a/b.jpg" zeroWidthRequest.Img_width] <+:
        callsBetween emptyWorld (handle demoEnv zeroWidthRequest emptyWorld).2 :=
  ⟨by decide, by decide,
   handle_forwards_width demoEnv zeroWidthRequest emptyWorld
     (stagedWorld "a/b.jpg" jpegBytes) (sniffedWorld "a/b.jpg" jpegBytes)
     "/tmp/in/a/b.jpg" "image/jpeg" (by decide) (by decide)⟩

/-- C10, against the claim: a request of width 0 on a JPEG source. `handle` calls
`resizeImage` with width 0, answers `status=true` and uploads an object. -/
theorem handle_zero_width_is_resized_and_published :
    zeroWidthRequest.Img_width = 0 ∧
    Call.resizeImage "/tmp/in/a/b.jpg" 0 ∈
      callsBetween emptyWorld (handle demoEnv zeroWidthRequest emptyWorld).2 ∧
    (handle demoEnv zeroWidthRequest emptyWorld).1.1.Status = true ∧
    (handle demoEnv zeroWidthRequest emptyWorld).1.1.Key = "thumbs/w200/b.jpg" ∧
    (handle demoEnv zeroWidthRequest emptyWorld).2.uploads =
      [⟨"public-read", "out", "thumbs/w200/b.jpg", "image/jpeg", thumbBytes ⟨0, 0, []⟩⟩] := by
  decide

/-- C9, the divergence. A text file as source: `handle` answers the silent skip and the
staged source file is still there.  An unreachable destination: `handle` answers the
upload failure and both the staged source and the transformed file are still there.
A truncated JPEG: `handle` answers the resize failure and the staged source is still
there. -/
theorem handle_leaves_staged_files :
    (handle demoEnv textRequest emptyWorld).1 = (⟨true, "", "", "", ""⟩, none) ∧
    (handle demoEnv textRequest emptyWorld).2.file "/tmp/in/a/notes.txt" = some textBytes ∧
    (handle demoEnv unreachableRequest emptyWorld).1.1.Status = false ∧
    (handle demoEnv unreachableRequest emptyWorld).2.file "/tmp/in/a/b.jpg" =
      some jpegBytes ∧
    (handle demoEnv unreachableRequest emptyWorld).2.file "/tmp/in/a/tmp_prew_b.jpg" =
      some (thumbBytes ⟨200, 100, []⟩) ∧
    (handle demoEnv brokenRequest emptyWorld).1.1.Status = false ∧
    (handle demoEnv brokenRequest emptyWorld).2.file "/tmp/in/a/broken.jpg" =
      some brokenBytes := by
  decide

/-- C1, the divergence. A source object `a/tmp_prew_b.jpg` (bucket `in`, rewrite part
`a`, root `thumbs`, preset `w200`): the staged path and the transformed path are as
the claim says, but the key computed is `thumbs/w200/b.jpg`, not
`thumbs/w200/tmp_prew_b.jpg`, and the run publishes under it. -/
theorem new_key_drops_marker_of_file_name :
    local_file ("a" ++ "/" ++ "tmp_prew_b.jpg") "in" = "/tmp/in/a/tmp_prew_b.jpg" ∧
    dst_image "/tmp/in/a/tmp_prew_b.jpg" = "/tmp/in/a/tmp_prew_tmp_prew_b.jpg" ∧
    new_key "/tmp/in/a/tmp_prew_tmp_prew_b.jpg" "in" "a" "thumbs" "w200" =
      "thumbs/w200/b.jpg" ∧
    new_key "/tmp/in/a/tmp_prew_tmp_prew_b.jpg" "in" "a" "thumbs" "w200" ≠
      "thumbs" ++ "/" ++ "w200" ++ "/" ++ "tmp_prew_b.jpg" ∧
    (handle demoEnv markerRequest emptyWorld).1.1.Key = "thumbs/w200/b.jpg" := by
  decide

/-- The request of the end-to-end scenario 1 of the specification, on a JPEG of 16 by
8 pixels: `a/b.jpg` of the bucket `in` is published under `thumbs/w200/b.jpg` with
`status=true`, and the staging area is empty afterwards. -/
theorem handle_scenario_one :
    (handle demoEnv demoRequest emptyWorld).1.2 = none ∧
    (handle demoEnv demoRequest emptyWorld).1.1.Status = true ∧
    (handle demoEnv demoRequest emptyWorld).1.1.Key = "thumbs/w200/b.jpg" ∧
    (handle demoEnv demoRequest emptyWorld).1.1.ContentType = "image/jpeg" ∧
    (handle demoEnv demoRequest emptyWorld).2.files = [] := by
  decide

/-- A source key outside the rewrite part (`z/b.jpg` with rewrite part `a`) keeps its
staging path in the key. -/
theorem new_key_outside_rewrite_part :
    new_key (dst_image (local_file "z/b.jpg" "in")) "in" "a" "thumbs" "w200" =
      "thumbs/w200//tmp/in/z/b.jpg" := by
  decide

/-- C7, against the claim. The root folder and the preset name go into the key as
they are: the root folder `cache/tmp/thumbs` gives the key
`cache/tmp/thumbs/w200/b.jpg`, which contains the staging root, and the preset name
`tmp_prew_w200` gives a key which contains the marker. -/
theorem new_key_may_contain_staging_tokens :
    new_key (dst_image (local_file "a/b.jpg" "in")) "in" "a" "cache/tmp/thumbs" "w200" =
      "cache/tmp/thumbs/w200/b.jpg" ∧
    containsSub
      (new_key (dst_image (local_file "a/b.jpg" "in")) "in" "a" "cache/tmp/thumbs" "w200")
      tmp ∧
    new_key (dst_image (local_file "a/b.jpg" "in")) "in" "a" "thumbs" "tmp_prew_w200" =
      "thumbs/tmp_prew_w200/b.jpg" ∧
    containsSub
      (new_key (dst_image (local_file "a/b.jpg" "in")) "in" "a" "thumbs" "tmp_prew_w200")
      "tmp_prew_" := by
  decide

/-- C7, as the code has it. When the source key lies under the rewrite part, `R/N`,
and the string `F/P/N` made of the caller's root folder, preset name and the rest of
the source key contains neither the staging root `/tmp/` nor the marker `tmp_prew_`,
the destination key contains neither: the staging prefix and the marker which the
program put in are taken out again. -/
theorem new_key_without_staging_tokens (B R F P N : String)
    (hT : ¬ containsSub (F ++ "/" ++ P ++ "/" ++ N) tmp)
    (hM : ¬ containsSub (F ++ "/" ++ P ++ "/" ++ N) "tmp_prew_") :
    ¬ containsSub (new_key (dst_image (local_file (R ++ "/" ++ N) B)) B R F P) tmp ∧
    ¬ containsSub (new_key (dst_image (local_file (R ++ "/" ++ N) B)) B R F P)
        "tmp_prew_" := by
  have hsuf : N.data <:+: (F ++ "/" ++ P ++ "/" ++ N).data := by
    rw [String.data_append]
    exact (List.suffix_append _ _).isInfix
  have hTN : ¬ containsSub N tmp := fun h => hT (List.IsInfix.trans h hsuf)
  have hMN : ¬ containsSub N "tmp_prew_" := fun h => hM (List.IsInfix.trans h hsuf)
  rw [new_key_under_rewrite_part B R F P N hTN hMN]
  exact ⟨hT, hM⟩

/-- C7, as the code has it, on an example: `photos/2020/b.jpg` in the bucket `in`
with rewrite part `photos`, root `thumbs`, preset `w200`. -/
theorem new_key_without_staging_tokens_witness :
    ¬ containsSub ("thumbs" ++ "/" ++ "w200" ++ "/" ++ "2020/b.jpg") tmp ∧
    ¬ containsSub ("thumbs" ++ "/" ++ "w200" ++ "/" ++ "2020/b.jpg") "tmp_prew_" ∧
    ¬ containsSub
        (new_key (dst_image (local_file ("photos" ++ "/" ++ "2020/b.jpg") "in")) "in"
          "photos" "thumbs" "w200") tmp ∧
    ¬ containsSub
        (new_key (dst_image (local_file ("photos" ++ "/" ++ "2020/b.jpg") "in")) "in"
          "photos" "thumbs" "w200") "tmp_prew_" :=
  ⟨by decide, by decide,
   new_key_without_staging_tokens "in" "photos" "thumbs" "w200" "2020/b.jpg"
     (by decide) (by decide)⟩

end Resizer
